import Mathlib

/-!
Verification of the chaser LED-panel effect engine.

The TypeScript sources are shallowly embedded: JavaScript numbers are
modelled as rationals (all arithmetic appearing in the verified code paths
is exact on the inputs of interest), JavaScript arrays as lists, and the
mutable DMX/packet buffers as functions from byte index to byte value.
Math.round is floor(x + 1/2), which is exactly the JavaScript semantics
for finite arguments, and the JavaScript remainder operator (sign of the
dividend) is modelled by truncated division.
-/

namespace Chaser

/-- Truncation toward zero, as used by the JavaScript remainder operator. -/
def qtrunc (x : ℚ) : ℤ := if 0 ≤ x then ⌊x⌋ else ⌈x⌉

/-- JavaScript remainder a % b (sign of the dividend). The b = 0 case is
never reached on the verified paths and is mapped to 0. -/
def jsMod (a b : ℚ) : ℚ := if b = 0 then 0 else a - b * qtrunc (a / b)

/-- JavaScript Math.round: round half toward positive infinity. -/
def jsRound (x : ℚ) : ℤ := ⌊x + 1/2⌋

/-- Clamp a rational into an interval, matching Math.max(lo, Math.min(hi, x)). -/
def qclamp (lo hi x : ℚ) : ℚ := max lo (min hi x)

/-- Clamp an integer into 0..255 and view it as a byte value. -/
def clampByte (z : ℤ) : ℕ := (max 0 (min 255 z)).toNat

/-- A rational that is the image of an integer. -/
def IsIntQ (q : ℚ) : Prop := ∃ n : ℤ, q = (n : ℚ)

/-- A color channel value as produced on the wire model: in 0..255 and integral. -/
def ChannelOK (q : ℚ) : Prop := 0 ≤ q ∧ q ≤ 255 ∧ IsIntQ q

/-! ## Color data model (packages/types/src/color.ts) -/

/-- Five-channel RGBCCT color, channels are JavaScript numbers. -/
structure RGBCCTColor where
  r : ℚ
  g : ℚ
  b : ℚ
  cool : ℚ
  warm : ℚ
deriving DecidableEq, Repr

/-- Three-channel RGB color used by the color-space helpers. -/
structure RGBColor where
  r : ℚ
  g : ℚ
  b : ℚ
deriving DecidableEq, Repr

/-- HSV triple, hue in degrees. -/
structure HSVColor where
  h : ℚ
  s : ℚ
  v : ℚ
deriving DecidableEq, Repr

/-- Per-panel output state. The timestamp field of the source is dropped:
no verified claim mentions it. -/
structure PanelState where
  color : RGBCCTColor
  brightness : ℚ
deriving DecidableEq, Repr

/-- All five channels of a color are integral and in range. -/
def ColorOK (c : RGBCCTColor) : Prop :=
  ChannelOK c.r ∧ ChannelOK c.g ∧ ChannelOK c.b ∧ ChannelOK c.cool ∧ ChannelOK c.warm

/-- The invariant claimed for every produced PanelState. -/
def PanelStateOK (s : PanelState) : Prop :=
  0 ≤ s.brightness ∧ s.brightness ≤ 1 ∧ ColorOK s.color


/-! ## Color-space utilities (packages/core/src/utils/colorSpace.ts) -/

/-- Conversion RGB to HSV, translated from rgbToHSV. -/
def rgbToHSV (rgb : RGBColor) : HSVColor :=
  let r := rgb.r / 255
  let g := rgb.g / 255
  let b := rgb.b / 255
  let mx := max r (max g b)
  let mn := min r (min g b)
  let delta := mx - mn
  let v := mx
  if delta > 0 then
    let s := delta / mx
    let h :=
      if mx = r then ((g - b) / delta + (if g < b then 6 else 0)) / 6
      else if mx = g then ((b - r) / delta + 2) / 6
      else ((r - g) / delta + 4) / 6
    ⟨h * 360, s, v⟩
  else
    ⟨0, 0, v⟩

/-- Conversion HSV to RGB, translated from hsvToRGB. The switch statement
of the source has no default case, so an index outside 0..5 leaves the
channels at their initial 0. -/
def hsvToRGB (hsv : HSVColor) : RGBColor :=
  let h := hsv.h / 360
  let s := hsv.s
  let v := hsv.v
  if s = 0 then
    ⟨jsRound (v * 255), jsRound (v * 255), jsRound (v * 255)⟩
  else
    let i : ℤ := ⌊h * 6⌋
    let f := h * 6 - i
    let p := v * (1 - s)
    let q := v * (1 - f * s)
    let t := v * (1 - (1 - f) * s)
    let k : ℤ := i % 6
    let rgb : ℚ × ℚ × ℚ :=
      if k = 0 then (v, t, p)
      else if k = 1 then (q, v, p)
      else if k = 2 then (p, v, t)
      else if k = 3 then (p, q, v)
      else if k = 4 then (t, p, v)
      else if k = 5 then (v, p, q)
      else (0, 0, 0)
    ⟨jsRound (rgb.1 * 255), jsRound (rgb.2.1 * 255), jsRound (rgb.2.2 * 255)⟩

/-- Linear interpolation of RGB colors, translated from interpolateRGB. -/
def interpolateRGB (c1 c2 : RGBColor) (mix : ℚ) : RGBColor :=
  ⟨jsRound (c1.r + (c2.r - c1.r) * mix),
   jsRound (c1.g + (c2.g - c1.g) * mix),
   jsRound (c1.b + (c2.b - c1.b) * mix)⟩

/-- Hue pair after the wrap handling of interpolateHSV: when the hues are
more than 180 degrees apart the smaller one is shifted by 360. -/
def shiftHues (h1 h2 : ℚ) : ℚ × ℚ :=
  if |h2 - h1| > 180 then
    (if h1 < h2 then (h1 + 360, h2) else (h1, h2 + 360))
  else (h1, h2)

/-- HSV triple mixed by interpolateHSV before conversion back to RGB. -/
def hsvMixOf (c1 c2 : RGBColor) (mix : ℚ) : HSVColor :=
  let hsv1 := rgbToHSV c1
  let hsv2 := rgbToHSV c2
  let hs := shiftHues hsv1.h hsv2.h
  let h1 := hs.1
  let h2 := hs.2
  ⟨jsMod (h1 + (h2 - h1) * mix) 360,
   hsv1.s + (hsv2.s - hsv1.s) * mix,
   hsv1.v + (hsv2.v - hsv1.v) * mix⟩

/-- HSV-space interpolation of RGB colors, translated from interpolateHSV. -/
def interpolateHSV (c1 c2 : RGBColor) (mix : ℚ) : RGBColor :=
  hsvToRGB (hsvMixOf c1 c2 mix)

/-- Per-channel blend of RGBCCT colors, translated from blendRGBCCT. -/
def blendRGBCCT (c1 c2 : RGBCCTColor) (mix : ℚ) : RGBCCTColor :=
  ⟨jsRound (c1.r + (c2.r - c1.r) * mix),
   jsRound (c1.g + (c2.g - c1.g) * mix),
   jsRound (c1.b + (c2.b - c1.b) * mix),
   jsRound (c1.cool + (c2.cool - c1.cool) * mix),
   jsRound (c1.warm + (c2.warm - c1.warm) * mix)⟩

/-- Round and clamp all channels to 0..255, translated from clampRGBCCT. -/
def clampRGBCCT (c : RGBCCTColor) : RGBCCTColor :=
  ⟨(max 0 (min 255 (jsRound c.r)) : ℤ),
   (max 0 (min 255 (jsRound c.g)) : ℤ),
   (max 0 (min 255 (jsRound c.b)) : ℤ),
   (max 0 (min 255 (jsRound c.cool)) : ℤ),
   (max 0 (min 255 (jsRound c.warm)) : ℤ)⟩

/-! ## Gradients and ColorManager.interpolateGradient
(packages/core/src/ColorManager.ts) -/

/-- Gradient color-space tag. The lab tag is treated as rgb by the source. -/
inductive GradientColorSpace where
  | rgb : GradientColorSpace
  | hsv : GradientColorSpace
  | lab : GradientColorSpace
deriving DecidableEq, Repr

/-- One gradient stop. -/
structure GradientStop where
  position : ℚ
  color : RGBCCTColor
deriving DecidableEq, Repr

/-- A gradient: a stop list plus a color-space tag. -/
structure Gradient where
  stops : List GradientStop
  colorSpace : GradientColorSpace
deriving DecidableEq, Repr

/-- Insert a stop into a position-sorted list, keeping it before later
stops with an equal position. -/
def insertStop (s : GradientStop) : List GradientStop → List GradientStop
  | [] => [s]
  | t :: ts => if t.position < s.position then t :: insertStop s ts else s :: t :: ts

/-- Stable sort of the stop list by position, modelling the JavaScript
stable Array.prototype.sort with comparator (a, b) => a.position - b.position. -/
def sortStops : List GradientStop → List GradientStop
  | [] => []
  | s :: ss => insertStop s (sortStops ss)

/-- Stop ordering by position. -/
def stopLE (a b : GradientStop) : Prop := a.position ≤ b.position

/-- Strict stop ordering by position. -/
def stopLT (a b : GradientStop) : Prop := a.position < b.position

/-- Clamp to the unit interval. -/
def clamp01 (p : ℚ) : ℚ := max 0 (min 1 p)

/-- First adjacent pair of stops bracketing the position; the loop of the
source scans pairs left to right and keeps the given default when no pair
matches. -/
def findAdjacent (p : ℚ) (dflt : GradientStop × GradientStop) :
    List GradientStop → GradientStop × GradientStop
  | a :: b :: rest =>
    if a.position ≤ p ∧ p ≤ b.position then (a, b)
    else findAdjacent p dflt (b :: rest)
  | _ => dflt

/-- Local interpolation parameter between two stops: zero when the
bracketing positions coincide. -/
def localParam (lower upper : GradientStop) (p : ℚ) : ℚ :=
  let range := upper.position - lower.position
  if range > 0 then (p - lower.position) / range else 0

/-- Body of interpolateGradient on the already-sorted stop list and the
already-clamped position. -/
def interpolateSorted (stops : List GradientStop) (cs : GradientColorSpace)
    (position : ℚ) : RGBCCTColor :=
  match stops with
  | [] => ⟨0, 0, 0, 0, 0⟩
  | s0 :: rest =>
    if rest.length = 0 ∨ position ≤ s0.position then s0.color
    else
      let lastStop := (s0 :: rest).getLast (by simp)
      if position ≥ lastStop.position then lastStop.color
      else
        let lu := findAdjacent position (s0, lastStop) (s0 :: rest)
        let lower := lu.1
        let upper := lu.2
        let localPosition := localParam lower upper position
        let rgb1 : RGBColor := ⟨lower.color.r, lower.color.g, lower.color.b⟩
        let rgb2 : RGBColor := ⟨upper.color.r, upper.color.g, upper.color.b⟩
        let irgb :=
          if cs = GradientColorSpace.hsv then interpolateHSV rgb1 rgb2 localPosition
          else interpolateRGB rgb1 rgb2 localPosition
        let cool := lower.color.cool + (upper.color.cool - lower.color.cool) * localPosition
        let warm := lower.color.warm + (upper.color.warm - lower.color.warm) * localPosition
        clampRGBCCT ⟨irgb.r, irgb.g, irgb.b, cool, warm⟩

/-- ColorManager.interpolateGradient: clamp the position, sort a copy of
the stops, then interpolate. -/
def interpolateGradient (g : Gradient) (position : ℚ) : RGBCCTColor :=
  interpolateSorted (sortStops g.stops) g.colorSpace (clamp01 position)

/-! ## PanelGrid topology (packages/core/src/PanelGrid.ts) -/

/-- Topology modes. -/
inductive TopologyMode where
  | circular : TopologyMode
  | linear : TopologyMode
  | singular : TopologyMode
deriving DecidableEq, Repr

/-- PanelGrid.getCircularSequence: column 0 ascending followed by column 1
descending, written with the hardcoded two-column shape of the source. -/
def getCircularSequence (rowsPerColumn : ℕ) : List ℕ :=
  List.range rowsPerColumn ++ (List.range' rowsPerColumn rowsPerColumn).reverse

/-- PanelGrid.getLinearSequences: one ascending sequence per column. -/
def getLinearSequences (columns rowsPerColumn : ℕ) : List (List ℕ) :=
  (List.range columns).map (fun col => List.range' (col * rowsPerColumn) rowsPerColumn)

/-- PanelGrid.getTopology: the sequence list for the current mode; the
singular mode lists every panel id in order. -/
def getTopology (columns rowsPerColumn : ℕ) (mode : TopologyMode) : List (List ℕ) :=
  match mode with
  | TopologyMode.circular => [getCircularSequence rowsPerColumn]
  | TopologyMode.linear => getLinearSequences columns rowsPerColumn
  | TopologyMode.singular => [List.range (columns * rowsPerColumn)]

/-! ## Effects (packages/core/src/effects, src/unnamed/part_011, part_012)

Each compute method is embedded as a pure function of its resolved inputs:
the elapsed time since initialize, the parameter bag (Option values model
absent entries, matching the ?? fallbacks of the source; the one || read
is modelled explicitly where it occurs), the color preset the color
manager returned for the configured name, and the grid data the effect
reads. -/

/-- A stored color preset: solid color or gradient. -/
inductive ColorPreset where
  | solid : RGBCCTColor → ColorPreset
  | gradient : Gradient → ColorPreset
deriving DecidableEq, Repr

/-- Validity of a preset lookup result: solid colors in range, gradient
stop colors in range; a missing preset imposes nothing. -/
def ColorPresetOK : Option ColorPreset → Prop
  | some (ColorPreset.solid c) => ColorOK c
  | some (ColorPreset.gradient g) => ∀ st ∈ g.stops, ColorOK st.color
  | none => True

/-- BaseEffect.createPanelState: the brightness is clamped to 0..1, the
color is passed through. -/
def createPanelState (color : RGBCCTColor) (brightness : ℚ) : PanelState :=
  ⟨color, max 0 (min 1 brightness)⟩

/-- BaseEffect.createUniformStates. -/
def createUniformStates (panelCount : ℕ) (color : RGBCCTColor) (brightness : ℚ) :
    List PanelState :=
  List.replicate panelCount (createPanelState color brightness)

/-- BaseEffect.easeInOut. -/
def easeInOut (t : ℚ) : ℚ := if t < 1/2 then 2 * t * t else -1 + (4 - 2 * t) * t

/-- BaseEffect.easeOut. -/
def easeOut (t : ℚ) : ℚ := t * (2 - t)

/-- Target-color resolution shared by the solid, sequential and strobe
effects: a solid preset is used directly, a gradient preset is sampled at
0.5, a missing preset falls back to warm/cool white. -/
def resolveTargetColor (preset : Option ColorPreset) : RGBCCTColor :=
  match preset with
  | some (ColorPreset.solid c) => c
  | some (ColorPreset.gradient g) => interpolateGradient g (1/2)
  | none => ⟨255, 255, 255, 255, 0⟩

/-- Gradient resolution of FlowEffect.compute: a solid preset becomes a
constant two-stop gradient, a missing preset the default red-to-blue one. -/
def resolveGradient (preset : Option ColorPreset) : Gradient :=
  match preset with
  | some (ColorPreset.gradient g) => g
  | some (ColorPreset.solid c) => ⟨[⟨0, c⟩, ⟨1, c⟩], GradientColorSpace.rgb⟩
  | none =>
    ⟨[⟨0, ⟨255, 0, 0, 0, 0⟩⟩, ⟨1, ⟨0, 0, 255, 0, 0⟩⟩], GradientColorSpace.rgb⟩

/-- Duration lookup of SolidColorEffect.compute: the JavaScript ||
treats an explicit 0 (falsy) like a missing value, falling back to the
1000 ms default. -/
def solidDuration (transitionDurationP : Option ℚ) : ℚ :=
  match transitionDurationP with
  | none => 1000
  | some d => if d = 0 then 1000 else d

/-- SolidColorEffect.compute. The transitionDuration parameter is read
with the JavaScript || operator, so an explicit 0 falls back to the
default 1000. Returns the states and the done flag set by this call. -/
def solidCompute (panelCount : ℕ) (preset : Option ColorPreset)
    (startColorP : Option RGBCCTColor) (brightnessP transitionDurationP : Option ℚ)
    (elapsed : ℚ) : List PanelState × Bool :=
  let startColor := startColorP.getD ⟨0, 0, 0, 0, 0⟩
  let duration : ℚ := solidDuration transitionDurationP
  let targetBrightness := brightnessP.getD 1
  let progress := min (elapsed / duration) 1
  let easedProgress := easeOut progress
  let done := decide (1 ≤ progress)
  let targetColor := resolveTargetColor preset
  let color : RGBCCTColor :=
    ⟨jsRound (startColor.r + (targetColor.r - startColor.r) * easedProgress),
     jsRound (startColor.g + (targetColor.g - startColor.g) * easedProgress),
     jsRound (startColor.b + (targetColor.b - startColor.b) * easedProgress),
     jsRound (startColor.cool + (targetColor.cool - startColor.cool) * easedProgress),
     jsRound (startColor.warm + (targetColor.warm - startColor.warm) * easedProgress)⟩
  (createUniformStates panelCount color targetBrightness, done)

/-- StrobeEffect.compute. -/
def strobeCompute (panelCount : ℕ) (preset : Option ColorPreset)
    (brightnessP frequencyP dutyCycleP : Option ℚ) (elapsed : ℚ) : List PanelState :=
  let frequency := frequencyP.getD 10
  let dutyCycle := dutyCycleP.getD (1/2)
  let targetBrightness := brightnessP.getD 1
  let cycleDuration := 1000 / frequency
  let cyclePosition := jsMod elapsed cycleDuration / cycleDuration
  let isOn := cyclePosition < dutyCycle
  let brightness := if isOn then targetBrightness else 0
  createUniformStates panelCount (resolveTargetColor preset) brightness

/-- BlackoutEffect.compute of part_011: fades the captured start states
toward black. -/
def blackoutCompute (startStates : List PanelState) (transitionDurationP : Option ℚ)
    (elapsed : ℚ) : List PanelState :=
  let duration := transitionDurationP.getD 0
  let progress := if duration > 0 then min 1 (elapsed / duration) else 1
  let easedProgress := easeInOut progress
  startStates.map fun st =>
    ⟨⟨jsRound (st.color.r * (1 - easedProgress)),
      jsRound (st.color.g * (1 - easedProgress)),
      jsRound (st.color.b * (1 - easedProgress)),
      jsRound (st.color.cool * (1 - easedProgress)),
      jsRound (st.color.warm * (1 - easedProgress))⟩,
     st.brightness * (1 - easedProgress)⟩

/-- BlackoutEffect.compute of part_012: a uniform black state whose
brightness fades out. -/
def blackoutComputeUniform (panelCount : ℕ) (transitionDurationP : Option ℚ)
    (elapsed : ℚ) : List PanelState :=
  let duration := transitionDurationP.getD 0
  let progress := if duration > 0 then min 1 (elapsed / duration) else 1
  let easedProgress := easeInOut progress
  let brightness := 1 - easedProgress
  createUniformStates panelCount ⟨0, 0, 0, 0, 0⟩ brightness

/-- BlackoutEffect.isComplete, identical in part_011 and part_012. -/
def blackoutIsComplete (transitionDurationP : Option ℚ) (elapsed : ℚ) : Bool :=
  decide (elapsed ≥ transitionDurationP.getD 0)

/-- Loop body of SequentialFadeEffect.compute: walk the first topology
sequence, overwriting the state of each panel whose fade has started and
clearing the all-complete flag for pending panels. -/
def seqFadeLoop (color : RGBCCTColor) (targetBrightness delay fade elapsed : ℚ) :
    List ℕ → ℕ → List PanelState → Bool → List PanelState × Bool
  | [], _, states, allComplete => (states, allComplete)
  | panelIndex :: rest, seqIndex, states, allComplete =>
    let panelStart := (seqIndex : ℚ) * delay
    if elapsed ≥ panelStart then
      let panelElapsed := elapsed - panelStart
      let progress := min (panelElapsed / fade) 1
      let easedProgress := easeOut progress
      let brightness := targetBrightness * easedProgress
      let states := states.set panelIndex (createPanelState color brightness)
      let allComplete := if progress < 1 then false else allComplete
      seqFadeLoop color targetBrightness delay fade elapsed rest (seqIndex + 1)
        states allComplete
    else
      seqFadeLoop color targetBrightness delay fade elapsed rest (seqIndex + 1)
        states false

/-- SequentialFadeEffect.compute: all panels start at brightness 0 in the
target color; the first sequence of the topology fades them in one by one.
Returns the states and the done flag. -/
def seqFadeCompute (panelCount : ℕ) (sequence : List ℕ) (preset : Option ColorPreset)
    (brightnessP delayP fadeP : Option ℚ) (elapsed : ℚ) : List PanelState × Bool :=
  let color := resolveTargetColor preset
  let targetBrightness := brightnessP.getD 1
  let delay := delayP.getD 100
  let fade := fadeP.getD 500
  let init := List.replicate panelCount (createPanelState color 0)
  seqFadeLoop color targetBrightness delay fade elapsed sequence 0 init true

/-- Inner loop of FlowEffect.compute over one sequence. The JavaScript
Math.sin and Math.PI have no exact rational counterpart; they enter only
the wave modulation term, whose result is clamped, and are abstracted as
the parameters sinFn and piQ. -/
def flowSeqLoop (gradient : Gradient) (targetBrightness scale timeOffset chaseLength
    waveHeight : ℚ) (mode : String) (sinFn : ℚ → ℚ) (piQ : ℚ) (seqLen : ℕ) :
    List ℕ → ℕ → List (Option PanelState) → List (Option PanelState)
  | [], _, states => states
  | panelIndex :: rest, seqIndex, states =>
    let normalizedPosition := (seqIndex : ℚ) / (seqLen : ℚ)
    let gp0 := jsMod (normalizedPosition * scale + timeOffset) 1
    let gradientPosition := if gp0 < 0 then gp0 + 1 else gp0
    let color := interpolateGradient gradient gradientPosition
    let brightness := targetBrightness
    let brightness :=
      if mode = "chase" then
        let distanceFromHead := min normalizedPosition (1 - normalizedPosition)
        let falloffRange := chaseLength / (seqLen : ℚ)
        if distanceFromHead < falloffRange then
          (1 - distanceFromHead / falloffRange) * targetBrightness
        else 0
      else brightness
    let brightness :=
      if waveHeight > 0 then
        let wavePhase := normalizedPosition * piQ * 4
        let wave := sinFn (wavePhase + timeOffset * piQ * 2)
        let modulation := wave * waveHeight * brightness
        qclamp 0 1 (brightness + modulation)
      else brightness
    let states := states.set panelIndex (some (createPanelState color brightness))
    flowSeqLoop gradient targetBrightness scale timeOffset chaseLength waveHeight
      mode sinFn piQ seqLen rest (seqIndex + 1) states

/-- FlowEffect.compute. The state array of the source is allocated sparse
and only written at the panel ids occurring in the sequences, which the
Option entries model; in singular mode every panel gets the same sample. -/
def flowCompute (panelCount : ℕ) (mode : TopologyMode) (sequences : List (List ℕ))
    (preset : Option ColorPreset) (speedP brightnessP chaseLengthP waveHeightP
    scaleP : Option ℚ) (modeP : Option String) (sinFn : ℚ → ℚ) (piQ : ℚ)
    (elapsed : ℚ) : List (Option PanelState) :=
  let speed := speedP.getD 1
  let targetBrightness := brightnessP.getD 1
  let chaseMode := match modeP with
    | none => "full"
    | some s => if s = "" then "full" else s
  let chaseLength := chaseLengthP.getD 3
  let waveHeight := waveHeightP.getD 0
  let scale := scaleP.getD (1/5)
  let gradient := resolveGradient preset
  let timeOffset := jsMod (elapsed * speed / 1000) 1
  if mode = TopologyMode.singular then
    let color := interpolateGradient gradient timeOffset
    List.replicate panelCount (some (createPanelState color targetBrightness))
  else
    sequences.foldl
      (fun states sequence =>
        flowSeqLoop gradient targetBrightness scale timeOffset chaseLength waveHeight
          chaseMode sinFn piQ sequence.length sequence 0 states)
      (List.replicate panelCount (none : Option PanelState))

/-- Mutable state of StaticEffect between computes. -/
structure StaticState where
  targetColors : List RGBCCTColor
  previousColors : List RGBCCTColor
  transitionStartTime : ℚ
  isTransitioning : Bool
  firstCompute : Bool
deriving Repr

/-- Per-panel interpolation of StaticEffect.compute: a missing previous
color defaults to black, as previousColors[index] || black does. -/
def staticColors (tp : ℚ) : List RGBCCTColor → List RGBCCTColor → List RGBCCTColor
  | [], _ => []
  | t :: ts, [] =>
    ⟨jsRound (0 + (t.r - 0) * tp), jsRound (0 + (t.g - 0) * tp),
     jsRound (0 + (t.b - 0) * tp), jsRound (0 + (t.cool - 0) * tp),
     jsRound (0 + (t.warm - 0) * tp)⟩ :: staticColors tp ts []
  | t :: ts, p :: ps =>
    ⟨jsRound (p.r + (t.r - p.r) * tp), jsRound (p.g + (t.g - p.g) * tp),
     jsRound (p.b + (t.b - p.b) * tp), jsRound (p.cool + (t.cool - p.cool) * tp),
     jsRound (p.warm + (t.warm - p.warm) * tp)⟩ :: staticColors tp ts ps

/-- Element-wise color inequality test, translated from
StaticEffect.hasColorsChanged. -/
def hasColorsChanged (newColors oldColors : List RGBCCTColor) : Bool :=
  decide (newColors ≠ oldColors)

/-- First-compute initialization step of StaticEffect.compute: capture
the grid colors as the previous colors and start the transition clock. -/
def staticFirstComputeUpdate (st : StaticState) (transitionDuration : ℚ)
    (gridColors : List RGBCCTColor) (panelCount : ℕ) (now : ℚ) : StaticState :=
  if st.firstCompute then
    { st with previousColors := gridColors.take panelCount,
              transitionStartTime := now,
              isTransitioning := decide (transitionDuration > 0),
              firstCompute := false }
  else st

/-- Target-change step of StaticEffect.compute: when a differing
panelColors parameter arrives, restart the transition from the current
grid colors. -/
def staticTargetUpdate (st : StaticState)
    (panelColorsP : Option (List RGBCCTColor)) (transitionDuration : ℚ)
    (gridColors : List RGBCCTColor) (panelCount : ℕ) (now : ℚ) : StaticState :=
  match panelColorsP with
  | some newTargets =>
    if hasColorsChanged newTargets st.targetColors then
      { st with previousColors := gridColors.take panelCount,
                targetColors := newTargets,
                transitionStartTime := now,
                isTransitioning := decide (transitionDuration > 0) }
    else st
  | none => st

/-- Transition-progress step of StaticEffect.compute: the eased cubic
progress, clearing the transition flag once it reaches 1. -/
def staticProgress (st : StaticState) (transitionDuration now : ℚ) :
    StaticState × ℚ :=
  if st.isTransitioning then
    let elapsed := now - st.transitionStartTime
    let tp0 := min (elapsed / transitionDuration) 1
    let tp := 1 - (1 - tp0) ^ 3
    (if tp ≥ 1 then { st with isTransitioning := false } else st, tp)
  else (st, 1)

/-- StaticEffect.compute as a step function on the effect state. The grid
colors are the colors getCurrentColors would read and now is Date.now().
Returns the updated state and the produced panel states. -/
def staticCompute (st : StaticState) (panelColorsP : Option (List RGBCCTColor))
    (brightnessP transitionDurationP : Option ℚ) (gridColors : List RGBCCTColor)
    (panelCount : ℕ) (now : ℚ) : StaticState × List PanelState :=
  let brightness := brightnessP.getD 1
  let transitionDuration := transitionDurationP.getD 300
  let st := staticFirstComputeUpdate st transitionDuration gridColors panelCount now
  let st := staticTargetUpdate st panelColorsP transitionDuration gridColors
    panelCount now
  let pair := staticProgress st transitionDuration now
  let colors := staticColors pair.2 (st.targetColors.take panelCount) st.previousColors
  (pair.1, colors.map fun c => ⟨c, brightness⟩)

/-! ## ArtNetOutput (src/unnamed/part_013)

The 512-byte DMX buffer and the 530-byte packet are modelled as functions
from byte index to byte value; an index assignment beyond the buffer
length is dropped, as it is on a Node Buffer. -/

/-- Static Art-Net configuration fields used when building packets. -/
structure ArtNetConfig where
  net : ℕ
  subnet : ℕ
  univ : ℕ
  startChannel : ℕ
  channelsPerPanel : ℕ
deriving Repr

/-- Single byte store into a 512-byte buffer; out-of-range stores are
ignored. -/
def dmxSet (buf : ℕ → ℕ) (idx : ℕ) (v : ℕ) : ℕ → ℕ :=
  if idx < 512 then fun j => if j = idx then v else buf j else buf

/-- Channel value for one panel state: the channel scaled by the panel
brightness, rounded, clamped to a byte. -/
def dmxChannelValue (channel brightness : ℚ) : ℕ :=
  clampByte (jsRound (channel * brightness))

/-- DMX base channel of panel i. -/
def panelBase (cfg : ArtNetConfig) (i : ℕ) : ℤ :=
  (cfg.startChannel : ℤ) - 1 + (i : ℤ) * (cfg.channelsPerPanel : ℤ)

/-- The bounds check of ArtNetOutput.render: true when the panel is
skipped. -/
def panelSkipped (cfg : ArtNetConfig) (i : ℕ) : Bool :=
  decide (panelBase cfg i < 0) || decide (panelBase cfg i + (cfg.channelsPerPanel : ℤ) > 512)

/-- Write the five channel bytes of one panel, translated from the forEach
body of ArtNetOutput.render. -/
def writePanel (cfg : ArtNetConfig) (i : ℕ) (st : PanelState) (buf : ℕ → ℕ) : ℕ → ℕ :=
  if panelSkipped cfg i then buf
  else
    let base := (panelBase cfg i).toNat
    let b := st.brightness
    let buf := dmxSet buf base (dmxChannelValue st.color.r b)
    let buf := dmxSet buf (base + 1) (dmxChannelValue st.color.g b)
    let buf := dmxSet buf (base + 2) (dmxChannelValue st.color.b b)
    let buf := dmxSet buf (base + 3) (dmxChannelValue st.color.cool b)
    let buf := dmxSet buf (base + 4) (dmxChannelValue st.color.warm b)
    buf

/-- Fold of render over the panel states, starting at panel index i. -/
def writePanels (cfg : ArtNetConfig) : ℕ → List PanelState → (ℕ → ℕ) → ℕ → ℕ
  | _, [], buf => buf
  | i, st :: rest, buf => writePanels cfg (i + 1) rest (writePanel cfg i st buf)

/-- ArtNetOutput.render DMX phase: clear the buffer and write every panel. -/
def renderDMX (cfg : ArtNetConfig) (states : List PanelState) : ℕ → ℕ :=
  writePanels cfg 0 states (fun _ => 0)

/-- Buffer store for packet building (530-byte packet). -/
def pktSet (buf : ℕ → ℕ) (idx : ℕ) (v : ℕ) : ℕ → ℕ :=
  fun j => if j = idx then v else buf j

/-- Little-endian 16-bit store, as Buffer.writeUInt16LE. -/
def pktSet16LE (buf : ℕ → ℕ) (idx : ℕ) (v : ℕ) : ℕ → ℕ :=
  pktSet (pktSet buf idx (v % 256)) (idx + 1) (v / 256 % 256)

/-- Big-endian 16-bit store, as Buffer.writeUInt16BE. -/
def pktSet16BE (buf : ℕ → ℕ) (idx : ℕ) (v : ℕ) : ℕ → ℕ :=
  pktSet (pktSet buf idx (v / 256 % 256)) (idx + 1) (v % 256)

/-- Sequential byte store of a literal string, as Buffer.write. -/
def pktWriteBytes (buf : ℕ → ℕ) (idx : ℕ) : List ℕ → ℕ → ℕ
  | [] => buf
  | v :: vs => pktWriteBytes (pktSet buf idx v) (idx + 1) vs

/-- Copy of the 512 DMX bytes into the packet at offset 18, as
Buffer.copy. -/
def pktCopyDMX (buf : ℕ → ℕ) (dmx : ℕ → ℕ) : ℕ → ℕ :=
  fun j => if 18 ≤ j ∧ j < 18 + 512 then dmx (j - 18) else buf j

/-- Packed port address (net << 8) | (subnet << 4) | universe. -/
def portAddress (cfg : ArtNetConfig) : ℕ :=
  (cfg.net <<< 8) ||| (cfg.subnet <<< 4) ||| cfg.univ

/-- ArtNetOutput.sendArtNetPacket, byte-content phase: build the 530-byte
packet from the current sequence counter and DMX buffer. -/
def buildPacketFn (cfg : ArtNetConfig) (seq : ℕ) (dmx : ℕ → ℕ) : ℕ → ℕ :=
  let buf : ℕ → ℕ := fun _ => 0
  let buf := pktWriteBytes buf 0 [65, 114, 116, 45, 78, 101, 116, 0]
  let buf := pktSet16LE buf 8 0x5000
  let buf := pktSet16BE buf 10 14
  let buf := pktSet buf 12 seq
  let buf := pktSet buf 13 0
  let buf := pktSet16LE buf 14 (portAddress cfg)
  let buf := pktSet16BE buf 16 512
  pktCopyDMX buf dmx

/-- The packet as the byte list of the allocated 18 + 512 buffer. -/
def buildPacketList (cfg : ArtNetConfig) (seq : ℕ) (dmx : ℕ → ℕ) : List ℕ :=
  (List.range (18 + 512)).map (buildPacketFn cfg seq dmx)

/-- Sequence-counter update of sendArtNetPacket: increment, wrapping the
stored counter to 0 once it exceeds 255. -/
def nextSequence (seq : ℕ) : ℕ :=
  if seq + 1 > 255 then 0 else seq + 1

/-- Channel value written for panel state st at offset k within its
five-byte block (r, g, b, cool, warm). -/
def panelChannel (st : PanelState) : ℕ → ℕ
  | 0 => dmxChannelValue st.color.r st.brightness
  | 1 => dmxChannelValue st.color.g st.brightness
  | 2 => dmxChannelValue st.color.b st.brightness
  | 3 => dmxChannelValue st.color.cool st.brightness
  | 4 => dmxChannelValue st.color.warm st.brightness
  | _ => 0

/-! ## PresetManager (src/unnamed/part_012) -/

/-- Whitespace test standing for the regex whitespace class; it contains
no character admitted by the later [a-z0-9-] filter. -/
def isJsWhitespace (c : Char) : Bool :=
  c = ' ' || c = '\t' || c = '\n' || c = '\r' || c = '\x0b' || c = '\x0c' || c = ' '

/-- ASCII lowercasing of String.prototype.toLowerCase; non-ASCII case
mappings are immaterial after the [a-z0-9-] filter. -/
def jsToLower (c : Char) : Char := c.toLower

/-- Character of the regex class [a-z0-9]. -/
def isIdChar (c : Char) : Bool :=
  ('a' ≤ c && c ≤ 'z') || ('0' ≤ c && c ≤ '9')

/-- Character admitted by the [^a-z0-9-] removal. -/
def keepChar (c : Char) : Bool :=
  isIdChar c || c = '-'

/-- Replacement of every maximal whitespace run by one hyphen, the
/\s+/g replace; the flag records whether a run is already open. -/
def replaceWsAux : Bool → List Char → List Char
  | _, [] => []
  | inRun, c :: rest =>
    if isJsWhitespace c then
      match inRun with
      | true => replaceWsAux true rest
      | false => '-' :: replaceWsAux true rest
    else c :: replaceWsAux false rest

/-- Collapse of every maximal hyphen run to one hyphen, the global
regex replace of one-or-more hyphens by a single hyphen. -/
def collapseDashAux : Bool → List Char → List Char
  | _, [] => []
  | inRun, c :: rest =>
    if c = '-' then
      match inRun with
      | true => collapseDashAux true rest
      | false => '-' :: collapseDashAux true rest
    else c :: collapseDashAux false rest

/-- Removal of leading and trailing hyphen runs, the /^-+|-+$/g replace. -/
def trimDashes (l : List Char) : List Char :=
  (((l.dropWhile (fun c => c = '-')).reverse.dropWhile (fun c => c = '-'))).reverse

/-- PresetManager.sanitizeId on the character list of the input string. -/
def sanitizeId (l : List Char) : List Char :=
  trimDashes (collapseDashAux false
    (List.filter keepChar (replaceWsAux false (l.map jsToLower))))

/-- Matcher for the tail of the id shape: what may follow once at least
one [a-z0-9] has been read; a hyphen must be followed by another
[a-z0-9]. -/
def idShapeTail : List Char → Bool
  | [] => true
  | c :: rest =>
    if c = '-' then
      match rest with
      | [] => false
      | d :: rest2 => isIdChar d && idShapeTail rest2
    else isIdChar c && idShapeTail rest

/-- Matcher for the regular expression of the claim: one or more [a-z0-9]
chunks separated by single hyphens. -/
def matchesIdShape : List Char → Bool
  | [] => false
  | c :: rest => isIdChar c && idShapeTail rest

/-- An effect preset record; the parameter bag is opaque here because no
verified operation inspects it. -/
structure EffectPreset where
  id : List Char
  presetName : String
  effect : String
  topology : String
  params : String
  createdAt : ℕ
  updatedAt : ℕ
  isProtected : Bool
deriving DecidableEq, Repr

/-- Store state of the preset manager: the in-memory map (an insertion
ordered association list, as a JavaScript Map) and the last content
written to the backing file. -/
structure PresetStore where
  mem : List (List Char × EffectPreset)
  disk : List (List Char × EffectPreset)
deriving DecidableEq, Repr

/-- PresetManager.create with an explicit outcome for the save step: the
id is sanitized and checked, the in-memory map is mutated, then save
either persists the map or throws, leaving the map mutated. The returned
option is the created preset, none on any thrown error. -/
def pmCreate (st : PresetStore) (rawId : List Char)
    (pname peffect ptopology pparams : String) (now : ℕ) (saveOk : Bool) :
    PresetStore × Option EffectPreset :=
  let sanitizedId := sanitizeId rawId
  if sanitizedId = [] then (st, none)
  else if (st.mem.lookup sanitizedId).isSome then (st, none)
  else
    let newPreset : EffectPreset :=
      ⟨sanitizedId, pname, peffect, ptopology, pparams, now, now, false⟩
    let mem := st.mem ++ [(sanitizedId, newPreset)]
    if saveOk then (⟨mem, mem⟩, some newPreset)
    else (⟨mem, st.disk⟩, none)

/-! ## Shared helper lemmas -/

/-- Floor evaluation from a bracketing pair. -/
theorem floor_eval {a : ℚ} {n : ℤ} (h1 : (n : ℚ) ≤ a) (h2 : a < n + 1) : ⌊a⌋ = n := by
  rw [Int.floor_eq_iff]
  constructor
  · exact_mod_cast h1
  · exact_mod_cast h2

/-- Bounds and integrality of jsRound on an in-range channel. -/
theorem jsRound_channelOK {x : ℚ} (h0 : 0 ≤ x) (h255 : x ≤ 255) :
    ChannelOK ((jsRound x : ℤ) : ℚ) := by
  unfold jsRound
  have hlo : (0 : ℤ) ≤ ⌊x + 1/2⌋ := by
    apply Int.le_floor.mpr
    push_cast
    linarith
  have hhi : ⌊x + 1/2⌋ ≤ 255 := by
    have : ⌊x + 1/2⌋ < 256 := by
      apply Int.floor_lt.mpr
      push_cast
      linarith
    omega
  refine ⟨by exact_mod_cast hlo, by exact_mod_cast hhi, ⟨⌊x + 1/2⌋, rfl⟩⟩

/-- Linear interpolation stays inside the interval of its endpoints. -/
theorem lerp_bounds {lo hi a b t : ℚ} (ha : lo ≤ a) (ha2 : a ≤ hi) (hb : lo ≤ b)
    (hb2 : b ≤ hi) (ht : 0 ≤ t) (ht2 : t ≤ 1) :
    lo ≤ a + (b - a) * t ∧ a + (b - a) * t ≤ hi := by
  constructor <;> nlinarith

/-- The quadratic ease-out maps the unit interval into itself. -/
theorem easeOut_mem {t : ℚ} (h0 : 0 ≤ t) (h1 : t ≤ 1) :
    0 ≤ easeOut t ∧ easeOut t ≤ 1 := by
  unfold easeOut
  constructor <;> nlinarith

/-- The quadratic ease-in-out maps the unit interval into itself. -/
theorem easeInOut_mem {t : ℚ} (h0 : 0 ≤ t) (h1 : t ≤ 1) :
    0 ≤ easeInOut t ∧ easeInOut t ≤ 1 := by
  unfold easeInOut
  split <;> constructor <;> nlinarith

/-- An integer clamped into 0..255 gives a valid channel after coercion. -/
theorem intClamp_channelOK (z : ℤ) : ChannelOK ((max 0 (min 255 z) : ℤ) : ℚ) := by
  refine ⟨?_, ?_, ⟨max 0 (min 255 z), rfl⟩⟩
  · exact_mod_cast le_max_left 0 (min 255 z)
  · have h : max 0 (min 255 z) ≤ 255 := max_le (by norm_num) (min_le_left _ _)
    exact_mod_cast h

/-- Every output of clampRGBCCT is a valid color. -/
theorem clampRGBCCT_colorOK (c : RGBCCTColor) : ColorOK (clampRGBCCT c) :=
  ⟨intClamp_channelOK _, intClamp_channelOK _, intClamp_channelOK _,
   intClamp_channelOK _, intClamp_channelOK _⟩

/-! ## Claim C5: the circular sequence -/

/-- C5: for the canonical 2x7 grid the circular topology sequence equals
0..6 followed by 13 down to 7, and in general for a two-column grid with
R rows per column it has length 2R, entry k equals k for k < R, and entry
R + k equals 2R - 1 - k. -/
theorem circularSequence_spec :
    getCircularSequence 7 = [0, 1, 2, 3, 4, 5, 6, 13, 12, 11, 10, 9, 8, 7] ∧
    ∀ R : ℕ, (getCircularSequence R).length = 2 * R ∧
      (∀ k, k < R → (getCircularSequence R).getD k 0 = k) ∧
      (∀ k, k < R → (getCircularSequence R).getD (R + k) 0 = 2 * R - 1 - k) := by
  refine ⟨by decide, fun R => ⟨?_, ?_, ?_⟩⟩
  · simp [getCircularSequence]
    omega
  · intro k hk
    have hlen : k < (List.range R).length := by simpa using hk
    rw [getCircularSequence, List.getD_eq_getElem _ _ (by simp; omega),
      List.getElem_append_left hlen]
    simp
  · intro k hk
    have hlen : (List.range R).length ≤ R + k := by simp
    rw [getCircularSequence, List.getD_eq_getElem _ _ (by simp; omega),
      List.getElem_append_right hlen]
    rw [List.getElem_reverse]
    rw [List.getElem_range']
    simp
    omega

/-- Witness instantiating circularSequence_spec at R = 7, k = 2. -/
theorem circularSequence_spec_witness :
    (getCircularSequence 7).getD 2 0 = 2 ∧ (getCircularSequence 7).getD 9 0 = 11 := by
  have h := circularSequence_spec.2 7
  exact ⟨h.2.1 2 (by norm_num), h.2.2 2 (by norm_num)⟩

/-! ## Claim C3: topology sequences form a permutation of the panel ids -/

/-- The linear sequences concatenate to exactly the id range. -/
theorem linearSequences_flatten (C R : ℕ) :
    (getLinearSequences C R).flatten = List.range (C * R) := by
  induction C with
  | zero => simp [getLinearSequences]
  | succ n ih =>
    have hrange : List.range (n + 1) = List.range n ++ [n] := List.range_succ n
    have hsplit : (n + 1) * R = n * R + R := by ring
    rw [getLinearSequences, hrange, List.map_append, List.flatten_append]
    have ih2 : ((List.range n).map
        (fun col => List.range' (col * R) R)).flatten = List.range (n * R) := ih
    rw [ih2, hsplit, List.range_add]
    simp [List.range'_eq_map_range]

/-- The circular sequence is a permutation of the ids of a two-column grid. -/
theorem circularSequence_perm (R : ℕ) :
    (getCircularSequence R).Perm (List.range (2 * R)) := by
  have hsplit : List.range (2 * R) = List.range R ++ List.range' R R := by
    rw [two_mul, List.range_add, List.range'_eq_map_range]
  rw [hsplit, getCircularSequence]
  exact List.Perm.append_left _ (List.reverse_perm _)

/-- C3, amended: concatenating the sequences of getTopology is a
permutation of the panel ids 0..C*R-1 for the linear and singular modes
with any C at least 1, and for the circular mode when C = 2 (the source
hardcodes the two-column loop). -/
theorem topology_flatten_perm (C R : ℕ) (mode : TopologyMode) (_hC : 1 ≤ C)
    (_hR : 1 ≤ R) (hcirc : mode = TopologyMode.circular → C = 2) :
    ((getTopology C R mode).flatten).Perm (List.range (C * R)) := by
  cases mode with
  | circular =>
    have hC2 : C = 2 := hcirc rfl
    subst hC2
    simpa [getTopology] using circularSequence_perm R
  | linear =>
    rw [getTopology, linearSequences_flatten]
  | singular =>
    simp [getTopology]

/-- Witness instantiating topology_flatten_perm on every mode of the
canonical 2x7 grid. -/
theorem topology_flatten_perm_witness :
    ((getTopology 2 7 TopologyMode.circular).flatten).Perm (List.range 14) ∧
    ((getTopology 2 7 TopologyMode.linear).flatten).Perm (List.range 14) ∧
    ((getTopology 2 7 TopologyMode.singular).flatten).Perm (List.range 14) :=
  ⟨topology_flatten_perm 2 7 _ (by norm_num) (by norm_num) (fun _ => rfl),
   topology_flatten_perm 2 7 _ (by norm_num) (by norm_num) (fun h => nomatch h),
   topology_flatten_perm 2 7 _ (by norm_num) (by norm_num) (fun h => nomatch h)⟩

/-- C3 counterexample: on a single-column grid the circular mode is not a
permutation of the panel ids, refuting the claim as stated for all C. -/
theorem topology_flatten_perm_cex :
    ¬ ((getTopology 1 1 TopologyMode.circular).flatten).Perm (List.range (1 * 1)) := by
  intro h
  have hlen := h.length_eq
  simp [getTopology, getCircularSequence] at hlen

/-! ## Claim C7: shortest-arc hue interpolation -/

/-- C7: whenever the endpoint hues are more than 180 degrees apart the
smaller one is shifted by 360 before the linear mix, and interpolating
red toward blue at mix 1/2 passes through hue 300 and lands on magenta. -/
theorem interpolateHSV_shortest_arc :
    (∀ h1 h2 : ℚ, |h2 - h1| > 180 →
      (h1 < h2 → shiftHues h1 h2 = (h1 + 360, h2)) ∧
      (h2 < h1 → shiftHues h1 h2 = (h1, h2 + 360))) ∧
    (hsvMixOf ⟨255, 0, 0⟩ ⟨0, 0, 255⟩ (1/2)).h = 300 ∧
    interpolateHSV ⟨255, 0, 0⟩ ⟨0, 0, 255⟩ (1/2) = ⟨255, 0, 255⟩ := by
  have hred : rgbToHSV ⟨255, 0, 0⟩ = ⟨0, 1, 1⟩ := by
    simp only [rgbToHSV]
    norm_num
  have hblue : rgbToHSV ⟨0, 0, 255⟩ = ⟨240, 1, 1⟩ := by
    simp only [rgbToHSV]
    norm_num
  have hshift : shiftHues 0 240 = (360, 240) := by
    simp only [shiftHues]
    norm_num
  have hmix : hsvMixOf ⟨255, 0, 0⟩ ⟨0, 0, 255⟩ (1/2) = ⟨300, 1, 1⟩ := by
    simp only [hsvMixOf, hred, hblue, hshift]
    simp only [jsMod, qtrunc]
    norm_num
  refine ⟨?_, by rw [hmix], ?_⟩
  · intro h1 h2 habs
    constructor <;> intro hlt <;> simp only [shiftHues, if_pos habs] <;>
      simp [hlt, not_lt_of_lt hlt]
  · rw [interpolateHSV, hmix]
    simp only [hsvToRGB, jsRound]
    norm_num

/-- Witness instantiating the shift conjunct of interpolateHSV_shortest_arc
at the red and blue hues. -/
theorem interpolateHSV_shortest_arc_witness :
    shiftHues 0 240 = (360, 240) ∧ shiftHues 240 0 = (240, 360) := by
  have h1 := (interpolateHSV_shortest_arc.1 0 240 (by norm_num)).1 (by norm_num)
  have h2 := (interpolateHSV_shortest_arc.1 240 0 (by norm_num)).2 (by norm_num)
  norm_num at h1 h2
  exact ⟨h1, h2⟩

/-! ## Claim C6: interpolateGradient edge cases -/

/-- Clamping to the unit interval yields a value in the unit interval. -/
theorem clamp01_mem (p : ℚ) : 0 ≤ clamp01 p ∧ clamp01 p ≤ 1 := by
  refine ⟨le_max_left _ _, max_le (by norm_num) (min_le_left _ _)⟩

/-- Clamping is the identity on the unit interval. -/
theorem clamp01_of_mem {p : ℚ} (h0 : 0 ≤ p) (h1 : p ≤ 1) : clamp01 p = p := by
  unfold clamp01
  rw [min_eq_right h1, max_eq_right h0]

/-- Clamping to the unit interval is idempotent. -/
theorem clamp01_idem (p : ℚ) : clamp01 (clamp01 p) = clamp01 p :=
  clamp01_of_mem (clamp01_mem p).1 (clamp01_mem p).2

/-- C6: interpolateGradient first clamps the position; an empty stop list
gives black; a single sorted stop, or a clamped position at or below the
lowest sorted position, gives the first sorted stop color; otherwise a
clamped position at or above the highest sorted position gives the last
sorted stop color; and the local parameter between stops with equal
positions is 0. The second, third and fourth cases apply in the if-chain
order of the source. -/
theorem interpolateGradient_edge_cases :
    (∀ (g : Gradient) (p : ℚ),
      interpolateGradient g p = interpolateGradient g (clamp01 p)) ∧
    (∀ (g : Gradient) (p : ℚ), g.stops = [] →
      interpolateGradient g p = ⟨0, 0, 0, 0, 0⟩) ∧
    (∀ (g : Gradient) (p : ℚ) (s0 : GradientStop) (rest : List GradientStop),
      sortStops g.stops = s0 :: rest → (rest = [] ∨ clamp01 p ≤ s0.position) →
      interpolateGradient g p = s0.color) ∧
    (∀ (g : Gradient) (p : ℚ) (s0 : GradientStop) (rest : List GradientStop)
      (slast : GradientStop),
      sortStops g.stops = s0 :: rest → (s0 :: rest).getLast? = some slast →
      ¬ (rest = [] ∨ clamp01 p ≤ s0.position) → slast.position ≤ clamp01 p →
      interpolateGradient g p = slast.color) ∧
    (∀ (lower upper : GradientStop) (p : ℚ), lower.position = upper.position →
      localParam lower upper p = 0) := by
  refine ⟨?_, ?_, ?_, ?_, ?_⟩
  · intro g p
    rw [interpolateGradient, interpolateGradient, clamp01_idem]
  · intro g p hnil
    rw [interpolateGradient, hnil]
    rfl
  · intro g p s0 rest hsort hcase
    rw [interpolateGradient, hsort, interpolateSorted]
    have hlen : rest.length = 0 ∨ clamp01 p ≤ s0.position := by
      rcases hcase with h | h
      · exact Or.inl (by simp [h])
      · exact Or.inr h
    rw [if_pos hlen]
  · intro g p s0 rest slast hsort hlast hneg hge
    rw [interpolateGradient, hsort, interpolateSorted]
    have hlen : ¬ (rest.length = 0 ∨ clamp01 p ≤ s0.position) := by
      intro hcon
      apply hneg
      rcases hcon with h | h
      · exact Or.inl (List.length_eq_zero.mp h)
      · exact Or.inr h
    rw [if_neg hlen]
    have hlast2 : (s0 :: rest).getLast (by simp) = slast := by
      rwa [List.getLast?_eq_getLast _ (by simp), Option.some_inj] at hlast
    simp only [hlast2]
    rw [if_pos (show clamp01 p ≥ slast.position from hge)]
  · intro lower upper p heq
    rw [localParam]
    simp [heq]

/-- Witness instantiating interpolateGradient_edge_cases on a concrete
two-stop gradient and on the empty gradient. -/
theorem interpolateGradient_edge_cases_witness :
    interpolateGradient ⟨[], GradientColorSpace.rgb⟩ (1/2) = ⟨0, 0, 0, 0, 0⟩ ∧
    interpolateGradient
      ⟨[⟨0, ⟨1, 2, 3, 4, 5⟩⟩, ⟨1, ⟨9, 9, 9, 9, 9⟩⟩], GradientColorSpace.rgb⟩ 0 =
      ⟨1, 2, 3, 4, 5⟩ ∧
    interpolateGradient
      ⟨[⟨0, ⟨1, 2, 3, 4, 5⟩⟩, ⟨1, ⟨9, 9, 9, 9, 9⟩⟩], GradientColorSpace.rgb⟩ 1 =
      ⟨9, 9, 9, 9, 9⟩ ∧
    localParam ⟨1, ⟨1, 2, 3, 4, 5⟩⟩ ⟨1, ⟨9, 9, 9, 9, 9⟩⟩ (1/2) = 0 := by
  have hsort : sortStops [⟨0, ⟨1, 2, 3, 4, 5⟩⟩, ⟨1, ⟨9, 9, 9, 9, 9⟩⟩] =
      [(⟨0, ⟨1, 2, 3, 4, 5⟩⟩ : GradientStop), ⟨1, ⟨9, 9, 9, 9, 9⟩⟩] := by
    simp only [sortStops, insertStop]
    norm_num
  refine ⟨interpolateGradient_edge_cases.2.1 _ (1/2) rfl, ?_, ?_,
    interpolateGradient_edge_cases.2.2.2.2 _ _ (1/2) rfl⟩
  · refine interpolateGradient_edge_cases.2.2.1
      ⟨[⟨0, ⟨1, 2, 3, 4, 5⟩⟩, ⟨1, ⟨9, 9, 9, 9, 9⟩⟩], GradientColorSpace.rgb⟩ 0
      ⟨0, ⟨1, 2, 3, 4, 5⟩⟩ [⟨1, ⟨9, 9, 9, 9, 9⟩⟩] hsort (Or.inr ?_)
    rw [clamp01_of_mem le_rfl (by norm_num)]
  · refine interpolateGradient_edge_cases.2.2.2.1
      ⟨[⟨0, ⟨1, 2, 3, 4, 5⟩⟩, ⟨1, ⟨9, 9, 9, 9, 9⟩⟩], GradientColorSpace.rgb⟩ 1
      ⟨0, ⟨1, 2, 3, 4, 5⟩⟩ [⟨1, ⟨9, 9, 9, 9, 9⟩⟩] ⟨1, ⟨9, 9, 9, 9, 9⟩⟩ hsort rfl ?_ ?_
    · rw [clamp01_of_mem (by norm_num) le_rfl]
      push_neg
      refine ⟨by simp, by norm_num⟩
    · rw [clamp01_of_mem (by norm_num) le_rfl]

/-! ## Claim C10: invariance of interpolateGradient under stop reordering -/

/-- Inserting a stop produces a permutation of consing it. -/
theorem insertStop_perm (s : GradientStop) (l : List GradientStop) :
    (insertStop s l).Perm (s :: l) := by
  induction l with
  | nil => rfl
  | cons t ts ih =>
    rw [insertStop]
    split
    · exact (ih.cons t).trans (List.Perm.swap s t ts)
    · rfl

/-- Sorting the stops permutes them. -/
theorem sortStops_perm (l : List GradientStop) : (sortStops l).Perm l := by
  induction l with
  | nil => rfl
  | cons s ss ih => exact (insertStop_perm s (sortStops ss)).trans (ih.cons s)

/-- Inserting into a sorted stop list keeps it sorted. -/
theorem insertStop_sorted (s : GradientStop) {l : List GradientStop}
    (h : List.Sorted stopLE l) : List.Sorted stopLE (insertStop s l) := by
  induction l with
  | nil => simp [insertStop, List.Sorted]
  | cons t ts ih =>
    rw [insertStop]
    rw [List.sorted_cons] at h
    split
    · rename_i hts
      rw [List.sorted_cons]
      refine ⟨?_, ih h.2⟩
      intro b hb
      have hmem := (insertStop_perm s ts).mem_iff.mp hb
      rcases List.mem_cons.mp hmem with hbs | hbts
      · subst hbs
        exact le_of_lt hts
      · exact h.1 b hbts
    · rename_i hts
      push_neg at hts
      rw [List.sorted_cons]
      refine ⟨?_, List.sorted_cons.mpr h⟩
      intro b hb
      rcases List.mem_cons.mp hb with hbt | hbts
      · subst hbt
        exact hts
      · exact le_trans hts (h.1 b hbts)

/-- The stop sort is sorted by position. -/
theorem sortStops_sorted (l : List GradientStop) :
    List.Sorted stopLE (sortStops l) := by
  induction l with
  | nil => simp [sortStops, List.Sorted]
  | cons s ss ih => exact insertStop_sorted s ih

/-- A position-sorted list with pairwise-distinct positions is strictly
sorted. -/
theorem sorted_strict_of_nodup {l : List GradientStop}
    (h : List.Sorted stopLE l) (hn : (l.map GradientStop.position).Nodup) :
    List.Sorted stopLT l := by
  have hpair : List.Pairwise
      (fun a b : GradientStop => a.position ≠ b.position) l := by
    rw [List.Nodup, List.pairwise_map] at hn
    exact hn
  exact (h.and hpair).imp fun hab => lt_of_le_of_ne hab.1 hab.2

/-- C10, amended: interpolateGradient is invariant under permuting the
stop list provided the stop positions are pairwise distinct; the sort of
the source is stable, so stops sharing a position keep their input order
and reordering them can change the result. -/
theorem interpolateGradient_perm_invariant (g1 g2 : Gradient) (p : ℚ)
    (hcs : g2.colorSpace = g1.colorSpace) (hperm : g2.stops.Perm g1.stops)
    (hnodup : (g1.stops.map GradientStop.position).Nodup) :
    interpolateGradient g2 p = interpolateGradient g1 p := by
  have hsortperm : (sortStops g2.stops).Perm (sortStops g1.stops) :=
    ((sortStops_perm g2.stops).trans hperm).trans (sortStops_perm g1.stops).symm
  have hn1 : ((sortStops g1.stops).map GradientStop.position).Nodup :=
    (((sortStops_perm g1.stops).map GradientStop.position).nodup_iff).mpr hnodup
  have hn2 : ((sortStops g2.stops).map GradientStop.position).Nodup :=
    ((hsortperm.map GradientStop.position).nodup_iff).mpr hn1
  haveI : IsAntisymm GradientStop stopLT :=
    ⟨fun _ _ h1 h2 => (lt_asymm h1 h2).elim⟩
  have heq : sortStops g2.stops = sortStops g1.stops :=
    List.eq_of_perm_of_sorted hsortperm
      (sorted_strict_of_nodup (sortStops_sorted _) hn2)
      (sorted_strict_of_nodup (sortStops_sorted _) hn1)
  rw [interpolateGradient, interpolateGradient, heq, hcs]

/-- Witness instantiating interpolateGradient_perm_invariant on a reversed
two-stop gradient with distinct positions. -/
theorem interpolateGradient_perm_invariant_witness :
    interpolateGradient
      ⟨[⟨1, ⟨0, 0, 255, 0, 0⟩⟩, ⟨0, ⟨255, 0, 0, 0, 0⟩⟩], GradientColorSpace.rgb⟩
      (1/3) =
    interpolateGradient
      ⟨[⟨0, ⟨255, 0, 0, 0, 0⟩⟩, ⟨1, ⟨0, 0, 255, 0, 0⟩⟩], GradientColorSpace.rgb⟩
      (1/3) := by
  refine interpolateGradient_perm_invariant _ _ (1/3) rfl ?_ ?_
  · exact List.Perm.swap _ _ _
  · simp only [List.map_cons, List.map_nil, List.nodup_cons, List.mem_singleton,
      List.mem_nil_iff, List.nodup_nil]
    norm_num

/-- C10 counterexample: with two stops sharing one position, reordering
the stop list changes the sampled color, because the stable sort keeps the
input order of equal positions. -/
theorem interpolateGradient_perm_invariant_cex :
    ([(⟨1, ⟨0, 0, 255, 0, 0⟩⟩ : GradientStop), ⟨1, ⟨255, 0, 0, 0, 0⟩⟩]).Perm
      [(⟨1, ⟨255, 0, 0, 0, 0⟩⟩ : GradientStop), ⟨1, ⟨0, 0, 255, 0, 0⟩⟩] ∧
    interpolateGradient
      ⟨[⟨1, ⟨0, 0, 255, 0, 0⟩⟩, ⟨1, ⟨255, 0, 0, 0, 0⟩⟩], GradientColorSpace.rgb⟩ 0 ≠
    interpolateGradient
      ⟨[⟨1, ⟨255, 0, 0, 0, 0⟩⟩, ⟨1, ⟨0, 0, 255, 0, 0⟩⟩], GradientColorSpace.rgb⟩ 0 := by
  refine ⟨List.Perm.swap _ _ _, ?_⟩
  have h1 : interpolateGradient
      ⟨[⟨1, ⟨0, 0, 255, 0, 0⟩⟩, ⟨1, ⟨255, 0, 0, 0, 0⟩⟩], GradientColorSpace.rgb⟩ 0 =
      ⟨0, 0, 255, 0, 0⟩ := by
    rw [interpolateGradient]
    have hs : sortStops [(⟨1, ⟨0, 0, 255, 0, 0⟩⟩ : GradientStop),
        ⟨1, ⟨255, 0, 0, 0, 0⟩⟩] =
        [⟨1, ⟨0, 0, 255, 0, 0⟩⟩, ⟨1, ⟨255, 0, 0, 0, 0⟩⟩] := by
      simp only [sortStops, insertStop]
      norm_num
    rw [hs, interpolateSorted, if_pos]
    rw [clamp01_of_mem le_rfl (by norm_num)]
    exact Or.inr (by norm_num)
  have h2 : interpolateGradient
      ⟨[⟨1, ⟨255, 0, 0, 0, 0⟩⟩, ⟨1, ⟨0, 0, 255, 0, 0⟩⟩], GradientColorSpace.rgb⟩ 0 =
      ⟨255, 0, 0, 0, 0⟩ := by
    rw [interpolateGradient]
    have hs : sortStops [(⟨1, ⟨255, 0, 0, 0, 0⟩⟩ : GradientStop),
        ⟨1, ⟨0, 0, 255, 0, 0⟩⟩] =
        [⟨1, ⟨255, 0, 0, 0, 0⟩⟩, ⟨1, ⟨0, 0, 255, 0, 0⟩⟩] := by
      simp only [sortStops, insertStop]
      norm_num
    rw [hs, interpolateSorted, if_pos]
    rw [clamp01_of_mem le_rfl (by norm_num)]
    exact Or.inr (by norm_num)
  rw [h1, h2]
  intro hcon
  have := congrArg RGBCCTColor.r hcon
  norm_num at this

/-! ## Claim C9: sanitizeId is idempotent and shapes its output -/

/-- Unfolding equation: a leading hyphen outside a run emits one hyphen
and opens a run. -/
theorem collapseDashAux_cons_dash_false (rest : List Char) :
    collapseDashAux false ('-' :: rest) = '-' :: collapseDashAux true rest := by
  simp [collapseDashAux]

/-- Unfolding equation: a hyphen inside a run is dropped. -/
theorem collapseDashAux_cons_dash_true (rest : List Char) :
    collapseDashAux true ('-' :: rest) = collapseDashAux true rest := by
  simp [collapseDashAux]

/-- Unfolding equation: a non-hyphen closes any run and is kept. -/
theorem collapseDashAux_cons_ne {c : Char} (hc : c ≠ '-') (b : Bool)
    (rest : List Char) :
    collapseDashAux b (c :: rest) = c :: collapseDashAux false rest := by
  cases b <;> simp [collapseDashAux, hc]

/-- Unfolding equation: a non-whitespace character is kept and closes any
run. -/
theorem replaceWsAux_cons_ne {c : Char} (hc : isJsWhitespace c = false) (b : Bool)
    (rest : List Char) :
    replaceWsAux b (c :: rest) = c :: replaceWsAux false rest := by
  cases b <;> simp [replaceWsAux, hc]

/-- Characters kept by the sanitizer are not whitespace. -/
theorem keepChar_not_ws {c : Char} (h : keepChar c = true) :
    isJsWhitespace c = false := by
  cases hws : isJsWhitespace c with
  | false => rfl
  | true =>
    exfalso
    simp only [isJsWhitespace, Bool.or_eq_true, decide_eq_true_eq] at hws
    rcases hws with ((((((rfl | rfl) | rfl) | rfl) | rfl) | rfl) | rfl) <;>
      simp [keepChar, isIdChar] at h

/-- Characters kept by the sanitizer are fixed by lowercasing. -/
theorem keepChar_toLower {c : Char} (h : keepChar c = true) : jsToLower c = c := by
  simp only [keepChar, isIdChar, Bool.or_eq_true, Bool.and_eq_true,
    decide_eq_true_eq] at h
  unfold jsToLower Char.toLower
  rw [if_neg]
  intro hcon
  rcases h with (⟨h1, _⟩ | ⟨_, h2⟩) | rfl
  · have ha : 97 ≤ c.toNat := h1
    omega
  · have h9 : c.toNat ≤ 57 := h2
    omega
  · simp at hcon

/-- Members of a collapsed list come from the input or are hyphens. -/
theorem mem_collapseDashAux {c : Char} :
    ∀ {b : Bool} {l : List Char}, c ∈ collapseDashAux b l → c ∈ l ∨ c = '-' := by
  intro b l
  induction l generalizing b with
  | nil => intro h; simp [collapseDashAux] at h
  | cons d rest ih =>
    intro h
    by_cases hd : d = '-'
    · subst hd
      cases b with
      | true =>
        rw [collapseDashAux_cons_dash_true] at h
        rcases ih h with hin | heq
        · exact Or.inl (List.mem_cons_of_mem _ hin)
        · exact Or.inr heq
      | false =>
        rw [collapseDashAux_cons_dash_false] at h
        rcases List.mem_cons.mp h with rfl | hin
        · exact Or.inr rfl
        · rcases ih hin with hin2 | heq
          · exact Or.inl (List.mem_cons_of_mem _ hin2)
          · exact Or.inr heq
    · rw [collapseDashAux_cons_ne hd] at h
      rcases List.mem_cons.mp h with rfl | hin
      · exact Or.inl (List.mem_cons_self _ _)
      · rcases ih hin with hin2 | heq
        · exact Or.inl (List.mem_cons_of_mem _ hin2)
        · exact Or.inr heq

/-- Members of the trimmed list come from the input. -/
theorem mem_trimDashes {c : Char} {l : List Char} (h : c ∈ trimDashes l) : c ∈ l := by
  unfold trimDashes at h
  rw [List.mem_reverse] at h
  have h2 := (List.dropWhile_sublist _).subset h
  rw [List.mem_reverse] at h2
  exact (List.dropWhile_sublist _).subset h2

/-- Lowercasing fixes a list of kept characters. -/
theorem map_toLower_eq_self {l : List Char} (h : ∀ c ∈ l, keepChar c = true) :
    l.map jsToLower = l := by
  induction l with
  | nil => rfl
  | cons c rest ih =>
    rw [List.map_cons, keepChar_toLower (h c (List.mem_cons_self _ _)),
      ih fun d hd => h d (List.mem_cons_of_mem _ hd)]

/-- Whitespace replacement fixes a whitespace-free list. -/
theorem replaceWsAux_eq_self {l : List Char}
    (h : ∀ c ∈ l, isJsWhitespace c = false) : replaceWsAux false l = l := by
  induction l with
  | nil => rfl
  | cons c rest ih =>
    rw [replaceWsAux_cons_ne (h c (List.mem_cons_self _ _)),
      ih fun d hd => h d (List.mem_cons_of_mem _ hd)]

/-- Dash collapsing fixes a list without adjacent hyphens; with the
in-run flag set it also needs a non-hyphen head. -/
theorem collapseDashAux_eq_self :
    ∀ l : List Char, List.Chain' (fun a b => ¬ (a = '-' ∧ b = '-')) l →
      collapseDashAux false l = l ∧
      ((∀ c, l.head? = some c → c ≠ '-') → collapseDashAux true l = l) := by
  intro l
  induction l with
  | nil => exact fun _ => ⟨rfl, fun _ => rfl⟩
  | cons c rest ih =>
    intro hch
    have hch2 := hch.tail
    by_cases hc : c = '-'
    · subst hc
      have hresthead : ∀ d, rest.head? = some d → d ≠ '-' := by
        intro d hd hcon
        subst hcon
        cases rest with
        | nil => simp at hd
        | cons e rest2 =>
          rw [List.head?_cons, Option.some_inj] at hd
          subst hd
          exact (List.chain'_cons.mp hch).1 ⟨rfl, rfl⟩
      constructor
      · rw [collapseDashAux_cons_dash_false, (ih hch2).2 hresthead]
      · intro hhead
        exact absurd rfl (hhead '-' rfl)
    · constructor
      · rw [collapseDashAux_cons_ne hc, (ih hch2).1]
      · intro _
        rw [collapseDashAux_cons_ne hc, (ih hch2).1]

/-- Dropping a failing-head prefix is the identity. -/
theorem dropWhile_eq_self_of_head {p : Char → Bool} {l : List Char}
    (h : ∀ c, l.head? = some c → p c = false) : List.dropWhile p l = l := by
  cases l with
  | nil => rfl
  | cons c rest =>
    rw [List.dropWhile_cons, if_neg]
    rw [h c rfl]
    exact fun hc => nomatch hc

/-- Trimming fixes a list whose first and last characters are not
hyphens. -/
theorem trimDashes_eq_self {l : List Char}
    (hh : ∀ c, l.head? = some c → c ≠ '-')
    (hl : ∀ c, l.getLast? = some c → c ≠ '-') : trimDashes l = l := by
  unfold trimDashes
  have h1 : List.dropWhile (fun c => decide (c = '-')) l = l :=
    dropWhile_eq_self_of_head (fun c hc => by simp [hh c hc])
  rw [h1]
  have h2 : List.dropWhile (fun c => decide (c = '-')) l.reverse = l.reverse :=
    dropWhile_eq_self_of_head (fun c hc => by
      rw [List.head?_reverse] at hc
      simp [hl c hc])
  rw [h2, List.reverse_reverse]

/-- The head of a dropWhile output fails the predicate. -/
theorem head?_dropWhile_not {p : Char → Bool} {l : List Char} {c : Char}
    (h : (List.dropWhile p l).head? = some c) : p c = false := by
  induction l with
  | nil => simp at h
  | cons d rest ih =>
    rw [List.dropWhile_cons] at h
    split at h
    · exact ih h
    · rename_i hpd
      rw [List.head?_cons, Option.some_inj] at h
      subst h
      simp only [Bool.not_eq_true] at hpd
      exact hpd

/-- The last element survives dropWhile when the output is nonempty. -/
theorem getLast?_dropWhile {p : Char → Bool} {l : List Char} {c : Char}
    (h : (List.dropWhile p l).getLast? = some c) : l.getLast? = some c := by
  induction l with
  | nil => simp at h
  | cons d rest ih =>
    rw [List.dropWhile_cons] at h
    split at h
    · have hrest := ih h
      cases rest with
      | nil => simp at hrest
      | cons e rest2 => rw [List.getLast?_cons_cons]; exact hrest
    · exact h

/-- dropWhile preserves a chain property. -/
theorem chain'_dropWhile {R : Char → Char → Prop} {p : Char → Bool}
    {l : List Char} (h : List.Chain' R l) : List.Chain' R (List.dropWhile p l) := by
  induction l with
  | nil => exact h
  | cons c rest ih =>
    rw [List.dropWhile_cons]
    split
    · exact ih h.tail
    · exact h

/-- The collapsed list has no adjacent hyphens, and with the in-run flag
set it does not start with one. -/
theorem collapseDashAux_nodd :
    ∀ l : List Char,
      List.Chain' (fun a b => ¬ (a = '-' ∧ b = '-')) (collapseDashAux false l) ∧
      List.Chain' (fun a b => ¬ (a = '-' ∧ b = '-')) (collapseDashAux true l) ∧
      (∀ c, (collapseDashAux true l).head? = some c → c ≠ '-') := by
  intro l
  induction l with
  | nil =>
    refine ⟨List.chain'_nil, List.chain'_nil, fun c hc => ?_⟩
    simp [collapseDashAux] at hc
  | cons c rest ih =>
    by_cases hc : c = '-'
    · subst hc
      refine ⟨?_, ?_, ?_⟩
      · rw [collapseDashAux_cons_dash_false, List.chain'_cons']
        refine ⟨?_, ih.2.1⟩
        intro y hy hcon
        exact ih.2.2 y hy hcon.2
      · rw [collapseDashAux_cons_dash_true]
        exact ih.2.1
      · rw [collapseDashAux_cons_dash_true]
        exact ih.2.2
    · refine ⟨?_, ?_, ?_⟩
      · rw [collapseDashAux_cons_ne hc, List.chain'_cons']
        exact ⟨fun y _ hcon => hc hcon.1, ih.1⟩
      · rw [collapseDashAux_cons_ne hc, List.chain'_cons']
        exact ⟨fun y _ hcon => hc hcon.1, ih.1⟩
      · rw [collapseDashAux_cons_ne hc]
        intro d hd
        rw [List.head?_cons, Option.some_inj] at hd
        subst hd
        exact hc

/-- Trimming preserves the no-adjacent-hyphen property. -/
theorem chain'_trimDashes {l : List Char}
    (h : List.Chain' (fun a b => ¬ (a = '-' ∧ b = '-')) l) :
    List.Chain' (fun a b => ¬ (a = '-' ∧ b = '-')) (trimDashes l) := by
  unfold trimDashes
  have h1 : List.Chain' (fun a b => ¬ (a = '-' ∧ b = '-'))
      (List.dropWhile (fun c => decide (c = '-')) l) := chain'_dropWhile h
  have h2 : List.Chain' (fun a b => ¬ (a = '-' ∧ b = '-'))
      (List.dropWhile (fun c => decide (c = '-')) l).reverse := by
    rw [List.chain'_reverse]
    exact h1.imp fun _ _ hab hcon => hab ⟨hcon.2, hcon.1⟩
  have h3 : List.Chain' (fun a b => ¬ (a = '-' ∧ b = '-'))
      (List.dropWhile (fun c => decide (c = '-'))
        (List.dropWhile (fun c => decide (c = '-')) l).reverse) :=
    chain'_dropWhile h2
  rw [List.chain'_reverse]
  exact h3.imp fun _ _ hab hcon => hab ⟨hcon.2, hcon.1⟩

/-- The trimmed list does not start with a hyphen. -/
theorem trimDashes_head_not_dash {l : List Char} {c : Char}
    (h : (trimDashes l).head? = some c) : c ≠ '-' := by
  unfold trimDashes at h
  rw [List.head?_reverse] at h
  have h2 := getLast?_dropWhile h
  rw [List.getLast?_reverse] at h2
  have h3 := head?_dropWhile_not h2
  simpa using h3

/-- The trimmed list does not end with a hyphen. -/
theorem trimDashes_last_not_dash {l : List Char} {c : Char}
    (h : (trimDashes l).getLast? = some c) : c ≠ '-' := by
  unfold trimDashes at h
  rw [List.getLast?_reverse] at h
  have h3 := head?_dropWhile_not h
  simpa using h3

/-- Unfolding equation: the id-shape tail rejects a trailing hyphen. -/
theorem idShapeTail_dash_nil : idShapeTail ['-'] = false := by
  decide

/-- Unfolding equation: after a hyphen another chunk must follow. -/
theorem idShapeTail_dash_cons (d : Char) (rest2 : List Char) :
    idShapeTail ('-' :: d :: rest2) = (isIdChar d && idShapeTail rest2) := by
  rw [idShapeTail.eq_def]
  simp

/-- Unfolding equation: a non-hyphen continues the current chunk. -/
theorem idShapeTail_cons_ne {c : Char} (hc : c ≠ '-') (rest : List Char) :
    idShapeTail (c :: rest) = (isIdChar c && idShapeTail rest) := by
  rw [idShapeTail.eq_def]
  simp [hc]

/-- A kept character that is not a hyphen is an id character. -/
theorem isIdChar_of_keep {c : Char} (hk : keepChar c = true) (hc : c ≠ '-') :
    isIdChar c = true := by
  simp only [keepChar, Bool.or_eq_true, decide_eq_true_eq] at hk
  exact hk.resolve_right hc

/-- Last-character hypothesis transfer to the tail. -/
theorem last_not_dash_tail {c : Char} {rest : List Char}
    (h : ∀ c0, (c :: rest).getLast? = some c0 → c0 ≠ '-') :
    ∀ c0, rest.getLast? = some c0 → c0 ≠ '-' := by
  intro c0 h0
  apply h
  cases rest with
  | nil => exact nomatch h0
  | cons e rest2 => rw [List.getLast?_cons_cons]; exact h0

/-- A keep-only list without adjacent hyphens and without a trailing
hyphen passes the id-shape tail matcher. -/
theorem idShapeTail_of_good :
    ∀ (n : ℕ) (l : List Char), l.length ≤ n →
      (∀ c ∈ l, keepChar c = true) →
      List.Chain' (fun a b => ¬ (a = '-' ∧ b = '-')) l →
      (∀ c, l.getLast? = some c → c ≠ '-') →
      idShapeTail l = true := by
  intro n
  induction n with
  | zero =>
    intro l hlen _ _ _
    rw [List.length_eq_zero.mp (Nat.le_zero.mp hlen)]
    rfl
  | succ n ih =>
    intro l hlen hkeep hch hlast
    cases l with
    | nil => rfl
    | cons c rest =>
      by_cases hc : c = '-'
      · subst hc
        cases rest with
        | nil => exact absurd rfl (hlast '-' rfl)
        | cons d rest2 =>
          have hd : d ≠ '-' := by
            intro hcon
            exact (List.chain'_cons.mp hch).1 ⟨rfl, hcon⟩
          rw [idShapeTail_dash_cons, Bool.and_eq_true]
          refine ⟨isIdChar_of_keep
            (hkeep d (List.mem_cons_of_mem _ (List.mem_cons_self _ _))) hd, ?_⟩
          refine ih rest2 ?_ ?_ ?_ ?_
          · simp at hlen ⊢
            omega
          · intro e he
            exact hkeep e (List.mem_cons_of_mem _ (List.mem_cons_of_mem _ he))
          · exact hch.tail.tail
          · exact last_not_dash_tail (last_not_dash_tail hlast)
      · rw [idShapeTail_cons_ne hc, Bool.and_eq_true]
        refine ⟨isIdChar_of_keep (hkeep c (List.mem_cons_self _ _)) hc, ?_⟩
        refine ih rest ?_ ?_ ?_ ?_
        · simp at hlen ⊢
          omega
        · intro e he
          exact hkeep e (List.mem_cons_of_mem _ he)
        · exact hch.tail
        · exact last_not_dash_tail hlast

/-- A nonempty keep-only list with no adjacent hyphens and hyphen-free
ends matches the id shape. -/
theorem matchesIdShape_of_good {l : List Char} (hne : l ≠ [])
    (hkeep : ∀ c ∈ l, keepChar c = true)
    (hch : List.Chain' (fun a b => ¬ (a = '-' ∧ b = '-')) l)
    (hhead : ∀ c, l.head? = some c → c ≠ '-')
    (hlast : ∀ c, l.getLast? = some c → c ≠ '-') :
    matchesIdShape l = true := by
  cases l with
  | nil => exact absurd rfl hne
  | cons c rest =>
    rw [matchesIdShape, Bool.and_eq_true]
    refine ⟨isIdChar_of_keep (hkeep c (List.mem_cons_self _ _)) (hhead c rfl), ?_⟩
    exact idShapeTail_of_good rest.length rest le_rfl
      (fun e he => hkeep e (List.mem_cons_of_mem _ he)) hch.tail
      (last_not_dash_tail hlast)

/-- C9: sanitizeId is idempotent, and its output matches the id shape
regular expression or is empty. -/
theorem sanitizeId_idempotent_and_shape (s : List Char) :
    sanitizeId (sanitizeId s) = sanitizeId s ∧
    (matchesIdShape (sanitizeId s) = true ∨ sanitizeId s = []) := by
  have hform : sanitizeId s = trimDashes (collapseDashAux false
      (List.filter keepChar (replaceWsAux false (s.map jsToLower)))) := rfl
  have hkeep : ∀ c ∈ sanitizeId s, keepChar c = true := by
    intro c hcy
    rw [hform] at hcy
    have h1 := mem_trimDashes hcy
    rcases mem_collapseDashAux h1 with h2 | h2
    · exact (List.mem_filter.mp h2).2
    · subst h2
      decide
  have hch : List.Chain' (fun a b => ¬ (a = '-' ∧ b = '-')) (sanitizeId s) := by
    rw [hform]
    exact chain'_trimDashes (collapseDashAux_nodd _).1
  have hhead : ∀ c, (sanitizeId s).head? = some c → c ≠ '-' := by
    intro c hc
    rw [hform] at hc
    exact trimDashes_head_not_dash hc
  have hlast : ∀ c, (sanitizeId s).getLast? = some c → c ≠ '-' := by
    intro c hc
    rw [hform] at hc
    exact trimDashes_last_not_dash hc
  constructor
  · show trimDashes (collapseDashAux false
      (List.filter keepChar (replaceWsAux false ((sanitizeId s).map jsToLower)))) =
      sanitizeId s
    rw [map_toLower_eq_self hkeep,
      replaceWsAux_eq_self (fun c hc => keepChar_not_ws (hkeep c hc)),
      List.filter_eq_self.mpr hkeep,
      (collapseDashAux_eq_self _ hch).1,
      trimDashes_eq_self hhead hlast]
  · by_cases hne : sanitizeId s = []
    · exact Or.inr hne
    · exact Or.inl (matchesIdShape_of_good hne hkeep hch hhead hlast)

/-! ## Claim C8: failed save during create -/

/-- C8, amended: when the save step of PresetManager.create fails after
the validation guards pass, the on-disk file is unchanged and the create
call reports an error, but the in-memory map has already been mutated and
contains the new preset: the source inserts into the map before calling
save and does not roll back. -/
theorem pmCreate_save_failure (st : PresetStore) (rawId : List Char)
    (pname peffect ptopology pparams : String) (now : ℕ)
    (hsan : sanitizeId rawId ≠ [])
    (hcol : (st.mem.lookup (sanitizeId rawId)).isSome = false) :
    (pmCreate st rawId pname peffect ptopology pparams now false).1.disk = st.disk ∧
    (pmCreate st rawId pname peffect ptopology pparams now false).1.mem =
      st.mem ++ [(sanitizeId rawId,
        ⟨sanitizeId rawId, pname, peffect, ptopology, pparams, now, now, false⟩)] ∧
    (pmCreate st rawId pname peffect ptopology pparams now false).2 = none := by
  unfold pmCreate
  rw [if_neg hsan, if_neg (by rw [hcol]; exact fun hc => nomatch hc)]
  exact ⟨rfl, rfl, rfl⟩

/-- Witness instantiating pmCreate_save_failure on the empty store. -/
theorem pmCreate_save_failure_witness :
    (pmCreate ⟨[], []⟩ ['a'] "n" "e" "t" "p" 0 false).1.disk = [] ∧
    (pmCreate ⟨[], []⟩ ['a'] "n" "e" "t" "p" 0 false).1.mem =
      [] ++ [(sanitizeId ['a'],
        ⟨sanitizeId ['a'], "n", "e", "t", "p", 0, 0, false⟩)] ∧
    (pmCreate ⟨[], []⟩ ['a'] "n" "e" "t" "p" 0 false).2 = none := by
  have h := pmCreate_save_failure ⟨[], []⟩ ['a'] "n" "e" "t" "p" 0
    (by decide) (by decide)
  exact h

/-- C8 counterexample: with a failing save, create on the empty store
leaves the disk empty but the in-memory map nonempty and holding the new
preset, refuting the unchanged-store claim. -/
theorem pmCreate_save_failure_cex :
    (pmCreate ⟨[], []⟩ ['a'] "n" "e" "t" "p" 0 false).1.mem ≠
      (⟨[], []⟩ : PresetStore).mem ∧
    ((pmCreate ⟨[], []⟩ ['a'] "n" "e" "t" "p" 0 false).1.mem.lookup
      ['a']).isSome = true ∧
    (pmCreate ⟨[], []⟩ ['a'] "n" "e" "t" "p" 0 false).1.disk = [] := by
  decide

/-! ## Claim C4: transitionDuration = 0 on the first tick -/

/-- C4, evaluated on the code: with transitionDuration 0 both Blackout
variants produce the fully transitioned black frame on any tick at or
after initialize and their isComplete predicate holds; SolidColorEffect,
however, reads transitionDuration with the JavaScript || operator, so an
explicit 0 falls back to the 1000 ms default and the first tick returns
the unchanged start color with the done flag still false. -/
theorem duration_zero_first_tick :
    (∀ (ss : List PanelState) (elapsed : ℚ), 0 ≤ elapsed →
      blackoutCompute ss (some 0) elapsed =
        ss.map (fun _ => ⟨⟨0, 0, 0, 0, 0⟩, 0⟩) ∧
      blackoutIsComplete (some 0) elapsed = true) ∧
    (∀ (panelCount : ℕ) (elapsed : ℚ), 0 ≤ elapsed →
      blackoutComputeUniform panelCount (some 0) elapsed =
        List.replicate panelCount ⟨⟨0, 0, 0, 0, 0⟩, 0⟩ ∧
      blackoutIsComplete (some 0) elapsed = true) ∧
    (∀ panelCount : ℕ,
      solidCompute panelCount (some (ColorPreset.solid ⟨255, 255, 255, 255, 0⟩))
        none (some 1) (some 0) 0 =
        (List.replicate panelCount ⟨⟨0, 0, 0, 0, 0⟩, 1⟩, false)) := by
  have heio : easeInOut 1 = 1 := by
    unfold easeInOut
    norm_num
  refine ⟨?_, ?_, ?_⟩
  · intro ss elapsed he
    constructor
    · unfold blackoutCompute
      simp only [Option.getD_some]
      rw [if_neg (by norm_num)]
      rw [heio]
      apply List.map_congr_left
      intro st _
      norm_num [jsRound]
    · unfold blackoutIsComplete
      simpa using he
  · intro panelCount elapsed he
    constructor
    · unfold blackoutComputeUniform
      simp only [Option.getD_some]
      rw [if_neg (by norm_num)]
      rw [heio]
      unfold createUniformStates createPanelState
      norm_num
    · unfold blackoutIsComplete
      simpa using he
  · intro panelCount
    unfold solidCompute resolveTargetColor
    simp only [Option.getD_some, Option.getD_none]
    norm_num [easeOut, jsRound, createUniformStates, createPanelState]

/-- Witness instantiating duration_zero_first_tick at a concrete frame. -/
theorem duration_zero_first_tick_witness :
    (blackoutCompute [⟨⟨10, 20, 30, 40, 50⟩, 1/2⟩] (some 0) 5 =
      [⟨⟨0, 0, 0, 0, 0⟩, 0⟩] ∧
     blackoutIsComplete (some 0) 5 = true) ∧
    (blackoutComputeUniform 2 (some 0) 5 =
      List.replicate 2 ⟨⟨0, 0, 0, 0, 0⟩, 0⟩ ∧
     blackoutIsComplete (some 0) 5 = true) ∧
    solidCompute 2 (some (ColorPreset.solid ⟨255, 255, 255, 255, 0⟩)) none
      (some 1) (some 0) 0 = (List.replicate 2 ⟨⟨0, 0, 0, 0, 0⟩, 1⟩, false) := by
  refine ⟨?_, ?_, duration_zero_first_tick.2.2 2⟩
  · have h := duration_zero_first_tick.1 [⟨⟨10, 20, 30, 40, 50⟩, 1/2⟩] 5 (by norm_num)
    simpa using h
  · exact duration_zero_first_tick.2.1 2 5 (by norm_num)

/-! ## Claim C1: range invariant of the effect outputs -/

/-- Channel validity of an integer-valued literal. -/
theorem channelOK_ofNum {q : ℚ} (n : ℤ) (h1 : q = (n : ℚ)) (h2 : 0 ≤ n)
    (h3 : n ≤ 255) : ChannelOK q := by
  subst h1
  exact ⟨by exact_mod_cast h2, by exact_mod_cast h3, n, rfl⟩

/-- Black is a valid color. -/
theorem colorOK_black : ColorOK ⟨0, 0, 0, 0, 0⟩ :=
  ⟨channelOK_ofNum 0 (by norm_num) (by norm_num) (by norm_num),
   channelOK_ofNum 0 (by norm_num) (by norm_num) (by norm_num),
   channelOK_ofNum 0 (by norm_num) (by norm_num) (by norm_num),
   channelOK_ofNum 0 (by norm_num) (by norm_num) (by norm_num),
   channelOK_ofNum 0 (by norm_num) (by norm_num) (by norm_num)⟩

/-- The warm/cool-white fallback is a valid color. -/
theorem colorOK_white : ColorOK ⟨255, 255, 255, 255, 0⟩ :=
  ⟨channelOK_ofNum 255 (by norm_num) (by norm_num) (by norm_num),
   channelOK_ofNum 255 (by norm_num) (by norm_num) (by norm_num),
   channelOK_ofNum 255 (by norm_num) (by norm_num) (by norm_num),
   channelOK_ofNum 255 (by norm_num) (by norm_num) (by norm_num),
   channelOK_ofNum 0 (by norm_num) (by norm_num) (by norm_num)⟩

/-- Gradient sampling of in-range stops yields an in-range color. -/
theorem interpolateGradient_colorOK {g : Gradient}
    (hg : ∀ st ∈ g.stops, ColorOK st.color) (p : ℚ) :
    ColorOK (interpolateGradient g p) := by
  rw [interpolateGradient]
  have hg2 : ∀ st ∈ sortStops g.stops, ColorOK st.color :=
    fun st hst => hg st ((sortStops_perm g.stops).subset hst)
  revert hg2
  generalize sortStops g.stops = l
  intro hg2
  cases l with
  | nil => exact colorOK_black
  | cons s0 rest =>
    by_cases h1 : rest.length = 0 ∨ clamp01 p ≤ s0.position
    · rw [interpolateSorted, if_pos h1]
      exact hg2 s0 (List.mem_cons_self _ _)
    · rw [interpolateSorted, if_neg h1]
      by_cases h2 : clamp01 p ≥ ((s0 :: rest).getLast (by simp)).position
      · rw [if_pos h2]
        exact hg2 _ (List.getLast_mem _)
      · rw [if_neg h2]
        exact clampRGBCCT_colorOK _

/-- Panel states built through createPanelState have clamped brightness
and keep their color. -/
theorem createPanelState_ok {c : RGBCCTColor} (hc : ColorOK c) (b : ℚ) :
    PanelStateOK (createPanelState c b) :=
  ⟨le_max_left _ _, max_le (by norm_num) (min_le_left _ _), hc⟩

/-- Resolved target colors of valid presets are valid. -/
theorem resolveTargetColor_ok {p : Option ColorPreset} (hp : ColorPresetOK p) :
    ColorOK (resolveTargetColor p) := by
  match p with
  | none => exact colorOK_white
  | some (ColorPreset.solid c) => exact hp
  | some (ColorPreset.gradient g) => exact interpolateGradient_colorOK hp _

/-- Resolved flow gradients of valid presets have valid stops. -/
theorem resolveGradient_stops_ok {p : Option ColorPreset} (hp : ColorPresetOK p) :
    ∀ st ∈ (resolveGradient p).stops, ColorOK st.color := by
  match p with
  | none =>
    intro st hst
    rcases List.mem_cons.mp hst with rfl | hst2
    · exact ⟨channelOK_ofNum 255 (by norm_num) (by norm_num) (by norm_num),
        channelOK_ofNum 0 (by norm_num) (by norm_num) (by norm_num),
        channelOK_ofNum 0 (by norm_num) (by norm_num) (by norm_num),
        channelOK_ofNum 0 (by norm_num) (by norm_num) (by norm_num),
        channelOK_ofNum 0 (by norm_num) (by norm_num) (by norm_num)⟩
    · rcases List.mem_singleton.mp hst2 with rfl
      exact ⟨channelOK_ofNum 0 (by norm_num) (by norm_num) (by norm_num),
        channelOK_ofNum 0 (by norm_num) (by norm_num) (by norm_num),
        channelOK_ofNum 255 (by norm_num) (by norm_num) (by norm_num),
        channelOK_ofNum 0 (by norm_num) (by norm_num) (by norm_num),
        channelOK_ofNum 0 (by norm_num) (by norm_num) (by norm_num)⟩
  | some (ColorPreset.solid c) =>
    intro st hst
    rcases List.mem_cons.mp hst with rfl | hst2
    · exact hp
    · rcases List.mem_singleton.mp hst2 with rfl
      exact hp
  | some (ColorPreset.gradient g) => exact hp

/-- The interpolation parameter of a positive-duration transition lies in
the unit interval. -/
theorem progress_mem {elapsed duration : ℚ} (he : 0 ≤ elapsed)
    (hd : 0 < duration) : 0 ≤ min (elapsed / duration) 1 ∧
      min (elapsed / duration) 1 ≤ 1 :=
  ⟨le_min (div_nonneg he hd.le) (by norm_num), min_le_right _ _⟩

/-- The duration read through the JavaScript || fallback is positive for
nonnegative parameters. -/
theorem solidDuration_pos {tP : Option ℚ} (h : ∀ d, tP = some d → 0 ≤ d) :
    0 < solidDuration tP := by
  match tP with
  | none => norm_num [solidDuration]
  | some d =>
    rw [solidDuration]
    split
    · norm_num
    · rename_i hd
      exact lt_of_le_of_ne (h d rfl) (Ne.symm hd)

/-- SolidColorEffect.compute output invariant. -/
theorem solidCompute_ok {preset : Option ColorPreset}
    {startColorP : Option RGBCCTColor} {brightnessP transitionDurationP : Option ℚ}
    {elapsed : ℚ} (panelCount : ℕ) (hpre : ColorPresetOK preset)
    (hstart : ∀ c0, startColorP = some c0 → ColorOK c0)
    (hdur : ∀ d, transitionDurationP = some d → 0 ≤ d) (he : 0 ≤ elapsed) :
    ∀ s ∈ (solidCompute panelCount preset startColorP brightnessP
      transitionDurationP elapsed).1, PanelStateOK s := by
  intro s hs
  simp only [solidCompute, createUniformStates] at hs
  have hs2 := List.eq_of_mem_replicate hs
  subst hs2
  apply createPanelState_ok
  have hst : ColorOK (startColorP.getD ⟨0, 0, 0, 0, 0⟩) := by
    match startColorP with
    | none => exact colorOK_black
    | some c0 => exact hstart c0 rfl
  have htg := resolveTargetColor_ok hpre
  have hprog := progress_mem he (solidDuration_pos hdur)
  have heased := easeOut_mem hprog.1 hprog.2
  rcases hst with ⟨hr, hg, hb, hcool, hwarm⟩
  rcases htg with ⟨hr2, hg2, hb2, hcool2, hwarm2⟩
  refine ⟨?_, ?_, ?_, ?_, ?_⟩
  · have hb3 := lerp_bounds hr.1 hr.2.1 hr2.1 hr2.2.1 heased.1 heased.2
    exact jsRound_channelOK hb3.1 hb3.2
  · have hb3 := lerp_bounds hg.1 hg.2.1 hg2.1 hg2.2.1 heased.1 heased.2
    exact jsRound_channelOK hb3.1 hb3.2
  · have hb3 := lerp_bounds hb.1 hb.2.1 hb2.1 hb2.2.1 heased.1 heased.2
    exact jsRound_channelOK hb3.1 hb3.2
  · have hb3 := lerp_bounds hcool.1 hcool.2.1 hcool2.1 hcool2.2.1 heased.1 heased.2
    exact jsRound_channelOK hb3.1 hb3.2
  · have hb3 := lerp_bounds hwarm.1 hwarm.2.1 hwarm2.1 hwarm2.2.1 heased.1 heased.2
    exact jsRound_channelOK hb3.1 hb3.2

/-- StrobeEffect.compute output invariant. -/
theorem strobeCompute_ok {preset : Option ColorPreset}
    {brightnessP frequencyP dutyCycleP : Option ℚ} {elapsed : ℚ}
    (panelCount : ℕ) (hpre : ColorPresetOK preset) :
    ∀ s ∈ strobeCompute panelCount preset brightnessP frequencyP dutyCycleP
      elapsed, PanelStateOK s := by
  intro s hs
  simp only [strobeCompute, createUniformStates] at hs
  have hs2 := List.eq_of_mem_replicate hs
  subst hs2
  exact createPanelState_ok (resolveTargetColor_ok hpre) _

/-- BlackoutEffect.compute (part_011) output invariant. -/
theorem blackoutCompute_ok {startStates : List PanelState}
    {transitionDurationP : Option ℚ} {elapsed : ℚ}
    (hss : ∀ st ∈ startStates, PanelStateOK st) (he : 0 ≤ elapsed) :
    ∀ s ∈ blackoutCompute startStates transitionDurationP elapsed,
      PanelStateOK s := by
  intro s hs
  simp only [blackoutCompute, List.mem_map] at hs
  obtain ⟨st, hstmem, hsteq⟩ := hs
  subst hsteq
  have hprog : 0 ≤ (if transitionDurationP.getD 0 > 0 then
      min 1 (elapsed / transitionDurationP.getD 0) else 1) ∧
      (if transitionDurationP.getD 0 > 0 then
      min 1 (elapsed / transitionDurationP.getD 0) else 1) ≤ 1 := by
    split
    · rename_i hd
      exact ⟨le_min (by norm_num) (div_nonneg he hd.le), min_le_left _ _⟩
    · norm_num
  have heased := easeInOut_mem hprog.1 hprog.2
  obtain ⟨hok0, hok1, hr, hg, hb, hcool, hwarm⟩ :
      0 ≤ st.brightness ∧ st.brightness ≤ 1 ∧ ChannelOK st.color.r ∧
      ChannelOK st.color.g ∧ ChannelOK st.color.b ∧ ChannelOK st.color.cool ∧
      ChannelOK st.color.warm := by
    have h := hss st hstmem
    exact ⟨h.1, h.2.1, h.2.2.1, h.2.2.2.1, h.2.2.2.2.1, h.2.2.2.2.2.1,
      h.2.2.2.2.2.2⟩
  have hfac0 : 0 ≤ 1 - easeInOut (if transitionDurationP.getD 0 > 0 then
      min 1 (elapsed / transitionDurationP.getD 0) else 1) := by linarith [heased.2]
  have hfac1 : 1 - easeInOut (if transitionDurationP.getD 0 > 0 then
      min 1 (elapsed / transitionDurationP.getD 0) else 1) ≤ 1 := by
    linarith [heased.1]
  refine ⟨mul_nonneg hok0 hfac0, ?_, ?_, ?_, ?_, ?_, ?_⟩
  · nlinarith
  · exact jsRound_channelOK (mul_nonneg hr.1 hfac0) (by nlinarith [hr.1, hr.2.1])
  · exact jsRound_channelOK (mul_nonneg hg.1 hfac0) (by nlinarith [hg.1, hg.2.1])
  · exact jsRound_channelOK (mul_nonneg hb.1 hfac0) (by nlinarith [hb.1, hb.2.1])
  · exact jsRound_channelOK (mul_nonneg hcool.1 hfac0)
      (by nlinarith [hcool.1, hcool.2.1])
  · exact jsRound_channelOK (mul_nonneg hwarm.1 hfac0)
      (by nlinarith [hwarm.1, hwarm.2.1])

/-- Loop invariant of SequentialFadeEffect.compute: states stay valid. -/
theorem seqFadeLoop_ok {color : RGBCCTColor}
    {targetBrightness delay fade elapsed : ℚ} (hc : ColorOK color) :
    ∀ (seqList : List ℕ) (k : ℕ) (states : List PanelState) (allC : Bool),
      (∀ s ∈ states, PanelStateOK s) →
      ∀ s ∈ (seqFadeLoop color targetBrightness delay fade elapsed seqList k
        states allC).1, PanelStateOK s := by
  intro seqList
  induction seqList with
  | nil => intro k states allC hstates; exact hstates
  | cons p rest ih =>
    intro k states allC hstates
    rw [seqFadeLoop]
    split
    · apply ih
      intro s hs
      rcases List.mem_or_eq_of_mem_set hs with hmem | heq
      · exact hstates s hmem
      · subst heq
        exact createPanelState_ok hc _
    · exact ih _ _ _ hstates

/-- SequentialFadeEffect.compute output invariant. -/
theorem seqFadeCompute_ok {preset : Option ColorPreset}
    {brightnessP delayP fadeP : Option ℚ} {elapsed : ℚ}
    (panelCount : ℕ) (sequence : List ℕ) (hpre : ColorPresetOK preset) :
    ∀ s ∈ (seqFadeCompute panelCount sequence preset brightnessP delayP fadeP
      elapsed).1, PanelStateOK s := by
  have hc := resolveTargetColor_ok hpre
  intro s hs
  simp only [seqFadeCompute] at hs
  refine seqFadeLoop_ok hc sequence 0 _ true ?_ s hs
  intro s0 hs0
  have := List.eq_of_mem_replicate hs0
  subst this
  exact createPanelState_ok hc _

/-- Loop invariant of FlowEffect.compute over one sequence. -/
theorem flowSeqLoop_ok {gradient : Gradient}
    {targetBrightness scale timeOffset chaseLength waveHeight : ℚ} {mode : String}
    {sinFn : ℚ → ℚ} {piQ : ℚ} {seqLen : ℕ}
    (hg : ∀ st ∈ gradient.stops, ColorOK st.color) :
    ∀ (seqList : List ℕ) (k : ℕ) (states : List (Option PanelState)),
      (∀ os ∈ states, ∀ s, os = some s → PanelStateOK s) →
      ∀ os ∈ flowSeqLoop gradient targetBrightness scale timeOffset chaseLength
        waveHeight mode sinFn piQ seqLen seqList k states,
        ∀ s, os = some s → PanelStateOK s := by
  intro seqList
  induction seqList with
  | nil => intro k states hstates; exact hstates
  | cons p rest ih =>
    intro k states hstates
    rw [flowSeqLoop]
    apply ih
    intro os hos s hseq
    rcases List.mem_or_eq_of_mem_set hos with hmem | heq
    · exact hstates os hmem s hseq
    · subst heq
      rw [Option.some_inj] at hseq
      subst hseq
      exact createPanelState_ok (interpolateGradient_colorOK hg _) _

/-- FlowEffect.compute output invariant: every written state is valid. -/
theorem flowCompute_ok {preset : Option ColorPreset}
    {speedP brightnessP chaseLengthP waveHeightP scaleP : Option ℚ}
    {modeP : Option String} {sinFn : ℚ → ℚ} {piQ : ℚ} {elapsed : ℚ}
    (panelCount : ℕ) (mode : TopologyMode) (sequences : List (List ℕ))
    (hpre : ColorPresetOK preset) :
    ∀ os ∈ flowCompute panelCount mode sequences preset speedP brightnessP
      chaseLengthP waveHeightP scaleP modeP sinFn piQ elapsed,
      ∀ s, os = some s → PanelStateOK s := by
  have hg := resolveGradient_stops_ok hpre
  have H : ∀ (seqs : List (List ℕ)) (states : List (Option PanelState)),
      (∀ os0 ∈ states, ∀ s0, os0 = some s0 → PanelStateOK s0) →
      ∀ os0 ∈ seqs.foldl
        (fun states0 sequence =>
          flowSeqLoop (resolveGradient preset) (brightnessP.getD 1)
            (scaleP.getD (1/5)) (jsMod (elapsed * speedP.getD 1 / 1000) 1)
            (chaseLengthP.getD 3) (waveHeightP.getD 0)
            (match modeP with
              | none => "full"
              | some s1 => if s1 = "" then "full" else s1) sinFn piQ
            sequence.length sequence 0 states0) states,
        ∀ s0, os0 = some s0 → PanelStateOK s0 := by
    intro seqs
    induction seqs with
    | nil => intro states hstates; exact hstates
    | cons s1 rest ih =>
      intro states hstates
      rw [List.foldl_cons]
      exact ih _ (flowSeqLoop_ok hg s1 0 states hstates)
  intro os hos s hseq
  simp only [flowCompute] at hos
  split at hos
  · have heq := List.eq_of_mem_replicate hos
    subst heq
    rw [Option.some_inj] at hseq
    subst hseq
    exact createPanelState_ok (interpolateGradient_colorOK hg _) _
  · refine H sequences _ ?_ os hos s hseq
    intro os0 hos0 s0 heq0
    rw [List.eq_of_mem_replicate hos0] at heq0
    exact nomatch heq0

/-- Per-panel colors of StaticEffect.compute stay in range. -/
theorem staticColors_ok {tp : ℚ} (h0 : 0 ≤ tp) (h1 : tp ≤ 1) :
    ∀ (ts ps : List RGBCCTColor), (∀ c ∈ ts, ColorOK c) →
      (∀ c ∈ ps, ColorOK c) → ∀ c ∈ staticColors tp ts ps, ColorOK c := by
  intro ts
  induction ts with
  | nil => intro ps _ _ c hc; simp [staticColors] at hc
  | cons t ts ih =>
    intro ps hts hps c hc
    have htOK := hts t (List.mem_cons_self _ _)
    have htsOK : ∀ c0 ∈ ts, ColorOK c0 :=
      fun c0 h0 => hts c0 (List.mem_cons_of_mem _ h0)
    rcases htOK with ⟨hr2, hg2, hb2, hcool2, hwarm2⟩
    cases ps with
    | nil =>
      rw [staticColors] at hc
      rcases List.mem_cons.mp hc with rfl | hc2
      · refine ⟨?_, ?_, ?_, ?_, ?_⟩
        · have hb3 := lerp_bounds (le_refl (0 : ℚ)) (by norm_num) hr2.1 hr2.2.1 h0 h1
          exact jsRound_channelOK hb3.1 hb3.2
        · have hb3 := lerp_bounds (le_refl (0 : ℚ)) (by norm_num) hg2.1 hg2.2.1 h0 h1
          exact jsRound_channelOK hb3.1 hb3.2
        · have hb3 := lerp_bounds (le_refl (0 : ℚ)) (by norm_num) hb2.1 hb2.2.1 h0 h1
          exact jsRound_channelOK hb3.1 hb3.2
        · have hb3 := lerp_bounds (le_refl (0 : ℚ)) (by norm_num) hcool2.1
            hcool2.2.1 h0 h1
          exact jsRound_channelOK hb3.1 hb3.2
        · have hb3 := lerp_bounds (le_refl (0 : ℚ)) (by norm_num) hwarm2.1
            hwarm2.2.1 h0 h1
          exact jsRound_channelOK hb3.1 hb3.2
      · exact ih [] htsOK (fun c0 h0 => nomatch h0) c hc2
    | cons p ps =>
      have hpOK := hps p (List.mem_cons_self _ _)
      have hpsOK : ∀ c0 ∈ ps, ColorOK c0 :=
        fun c0 h0 => hps c0 (List.mem_cons_of_mem _ h0)
      rcases hpOK with ⟨hr1, hg1, hb1, hcool1, hwarm1⟩
      rw [staticColors] at hc
      rcases List.mem_cons.mp hc with rfl | hc2
      · refine ⟨?_, ?_, ?_, ?_, ?_⟩
        · have hb3 := lerp_bounds hr1.1 hr1.2.1 hr2.1 hr2.2.1 h0 h1
          exact jsRound_channelOK hb3.1 hb3.2
        · have hb3 := lerp_bounds hg1.1 hg1.2.1 hg2.1 hg2.2.1 h0 h1
          exact jsRound_channelOK hb3.1 hb3.2
        · have hb3 := lerp_bounds hb1.1 hb1.2.1 hb2.1 hb2.2.1 h0 h1
          exact jsRound_channelOK hb3.1 hb3.2
        · have hb3 := lerp_bounds hcool1.1 hcool1.2.1 hcool2.1 hcool2.2.1 h0 h1
          exact jsRound_channelOK hb3.1 hb3.2
        · have hb3 := lerp_bounds hwarm1.1 hwarm1.2.1 hwarm2.1 hwarm2.2.1 h0 h1
          exact jsRound_channelOK hb3.1 hb3.2
      · exact ih ps htsOK hpsOK c hc2

/-- Mapped static output states are valid for a unit-interval progress and
brightness and in-range color lists. -/
theorem staticOut_ok {tp b : ℚ} {ts ps : List RGBCCTColor} (h0 : 0 ≤ tp)
    (h1 : tp ≤ 1) (hb0 : 0 ≤ b) (hb1 : b ≤ 1) (hts : ∀ c ∈ ts, ColorOK c)
    (hps : ∀ c ∈ ps, ColorOK c) :
    ∀ s ∈ (staticColors tp ts ps).map
      (fun c => ({ color := c, brightness := b } : PanelState)), PanelStateOK s := by
  intro s hs
  rw [List.mem_map] at hs
  obtain ⟨c, hc, rfl⟩ := hs
  exact ⟨hb0, hb1, staticColors_ok h0 h1 ts ps hts hps c hc⟩

/-- The eased cubic transition progress lies in the unit interval. -/
theorem easeOutCubic_mem {x : ℚ} (h0 : 0 ≤ x) (h1 : x ≤ 1) :
    0 ≤ 1 - (1 - x) ^ 3 ∧ 1 - (1 - x) ^ 3 ≤ 1 := by
  constructor
  · have h2 : (1 - x) ^ 3 ≤ 1 := pow_le_one₀ (by linarith) (by linarith)
    linarith
  · have h2 : (0 : ℚ) ≤ (1 - x) ^ 3 := pow_nonneg (by linarith) 3
    linarith

/-- Brightness parameter bound through the default. -/
theorem brightness_getD_mem {brightnessP : Option ℚ}
    (hb : ∀ b, brightnessP = some b → 0 ≤ b ∧ b ≤ 1) :
    0 ≤ brightnessP.getD 1 ∧ brightnessP.getD 1 ≤ 1 := by
  match brightnessP with
  | none => norm_num
  | some b => exact hb b rfl

/-- Properties preserved and established by the first-compute step. -/
theorem staticFirstComputeUpdate_props {st : StaticState} {td : ℚ}
    {gridColors : List RGBCCTColor} {panelCount : ℕ} {now : ℚ}
    (htargets : ∀ c ∈ st.targetColors, ColorOK c)
    (hprev : ∀ c ∈ st.previousColors, ColorOK c)
    (hgridtake : ∀ c ∈ gridColors.take panelCount, ColorOK c)
    (hts : st.isTransitioning = true → 0 < td)
    (hnow : st.transitionStartTime ≤ now) :
    (∀ c ∈ (staticFirstComputeUpdate st td gridColors panelCount now).targetColors,
      ColorOK c) ∧
    (∀ c ∈ (staticFirstComputeUpdate st td gridColors panelCount
      now).previousColors, ColorOK c) ∧
    ((staticFirstComputeUpdate st td gridColors panelCount
      now).isTransitioning = true → 0 < td) ∧
    (staticFirstComputeUpdate st td gridColors panelCount
      now).transitionStartTime ≤ now := by
  unfold staticFirstComputeUpdate
  split
  · exact ⟨htargets, hgridtake, fun hd => of_decide_eq_true hd, le_refl now⟩
  · exact ⟨htargets, hprev, hts, hnow⟩

/-- Properties preserved and established by the target-change step. -/
theorem staticTargetUpdate_props {st : StaticState}
    {panelColorsP : Option (List RGBCCTColor)} {td : ℚ}
    {gridColors : List RGBCCTColor} {panelCount : ℕ} {now : ℚ}
    (htargets : ∀ c ∈ st.targetColors, ColorOK c)
    (hprev : ∀ c ∈ st.previousColors, ColorOK c)
    (hgridtake : ∀ c ∈ gridColors.take panelCount, ColorOK c)
    (hnew : ∀ cs, panelColorsP = some cs → ∀ c ∈ cs, ColorOK c)
    (hts : st.isTransitioning = true → 0 < td)
    (hnow : st.transitionStartTime ≤ now) :
    (∀ c ∈ (staticTargetUpdate st panelColorsP td gridColors panelCount
      now).targetColors, ColorOK c) ∧
    (∀ c ∈ (staticTargetUpdate st panelColorsP td gridColors panelCount
      now).previousColors, ColorOK c) ∧
    ((staticTargetUpdate st panelColorsP td gridColors panelCount
      now).isTransitioning = true → 0 < td) ∧
    (staticTargetUpdate st panelColorsP td gridColors panelCount
      now).transitionStartTime ≤ now := by
  rcases panelColorsP with _ | cs
  · exact ⟨htargets, hprev, hts, hnow⟩
  · have hred : staticTargetUpdate st (some cs) td gridColors panelCount now =
        if hasColorsChanged cs st.targetColors then
          { st with previousColors := gridColors.take panelCount,
                    targetColors := cs,
                    transitionStartTime := now,
                    isTransitioning := decide (td > 0) }
        else st := rfl
    rw [hred]
    by_cases hch : hasColorsChanged cs st.targetColors
    · rw [if_pos hch]
      exact ⟨hnew cs rfl, hgridtake, fun hd => of_decide_eq_true hd, le_refl now⟩
    · rw [if_neg hch]
      exact ⟨htargets, hprev, hts, hnow⟩

/-- The progress value of the transition step lies in the unit interval. -/
theorem staticProgress_mem {st : StaticState} {td now : ℚ}
    (hts : st.isTransitioning = true → 0 < td)
    (hnow : st.transitionStartTime ≤ now) :
    0 ≤ (staticProgress st td now).2 ∧ (staticProgress st td now).2 ≤ 1 := by
  have hred : staticProgress st td now =
      if st.isTransitioning then
        (if 1 - (1 - min ((now - st.transitionStartTime) / td) 1) ^ 3 ≥ 1 then
          { st with isTransitioning := false } else st,
         1 - (1 - min ((now - st.transitionStartTime) / td) 1) ^ 3)
      else (st, 1) := rfl
  rw [hred]
  by_cases hflag : st.isTransitioning
  · rw [if_pos hflag]
    have htdpos := hts hflag
    have hm := progress_mem (by linarith : (0 : ℚ) ≤ now - st.transitionStartTime)
      htdpos
    exact easeOutCubic_mem hm.1 hm.2
  · rw [if_neg hflag]
    norm_num

/-- StaticEffect.compute output invariant under in-range inputs. -/
theorem staticCompute_ok {st : StaticState}
    {panelColorsP : Option (List RGBCCTColor)}
    {brightnessP transitionDurationP : Option ℚ} {gridColors : List RGBCCTColor}
    {panelCount : ℕ} {now : ℚ}
    (htargets : ∀ c ∈ st.targetColors, ColorOK c)
    (hprev : ∀ c ∈ st.previousColors, ColorOK c)
    (hgrid : ∀ c ∈ gridColors, ColorOK c)
    (hnew : ∀ cs, panelColorsP = some cs → ∀ c ∈ cs, ColorOK c)
    (hb : ∀ b, brightnessP = some b → 0 ≤ b ∧ b ≤ 1)
    (hts : st.isTransitioning = true → 0 < transitionDurationP.getD 300)
    (hnow : st.transitionStartTime ≤ now) :
    ∀ s ∈ (staticCompute st panelColorsP brightnessP transitionDurationP
      gridColors panelCount now).2, PanelStateOK s := by
  have hbb := brightness_getD_mem hb
  have hgridtake : ∀ c ∈ gridColors.take panelCount, ColorOK c :=
    fun c hc => hgrid c ((List.take_sublist _ _).subset hc)
  obtain ⟨p1, p2, p3, p4⟩ :=
    staticFirstComputeUpdate_props htargets hprev hgridtake hts hnow
  obtain ⟨q1, q2, q3, q4⟩ :=
    staticTargetUpdate_props p1 p2 hgridtake hnew p3 p4
  have hprog := staticProgress_mem q3 q4
  intro s hs
  exact staticOut_ok hprog.1 hprog.2 hbb.1 hbb.2
    (fun c hc => q1 c ((List.take_sublist _ _).subset hc)) q2 s hs

/-- C1, amended: every PanelState produced by the six effect compute
functions has brightness in [0,1] and integer color channels in [0,255],
provided the inputs the computes read are themselves in range: color
presets and explicit colors in range, the solid transitionDuration and
the elapsed times nonnegative, the static brightness parameter in [0,1],
the blackout start states valid, and the static transition state
consistent (a set transition flag implies a positive duration and a start
time not after now). -/
theorem effects_output_in_range :
    (∀ (panelCount : ℕ) (preset : Option ColorPreset)
      (startColorP : Option RGBCCTColor)
      (brightnessP transitionDurationP : Option ℚ) (elapsed : ℚ),
      ColorPresetOK preset → (∀ c0, startColorP = some c0 → ColorOK c0) →
      (∀ d, transitionDurationP = some d → 0 ≤ d) → 0 ≤ elapsed →
      ∀ s ∈ (solidCompute panelCount preset startColorP brightnessP
        transitionDurationP elapsed).1, PanelStateOK s) ∧
    (∀ (panelCount : ℕ) (sequence : List ℕ) (preset : Option ColorPreset)
      (brightnessP delayP fadeP : Option ℚ) (elapsed : ℚ),
      ColorPresetOK preset →
      ∀ s ∈ (seqFadeCompute panelCount sequence preset brightnessP delayP fadeP
        elapsed).1, PanelStateOK s) ∧
    (∀ (panelCount : ℕ) (mode : TopologyMode) (sequences : List (List ℕ))
      (preset : Option ColorPreset)
      (speedP brightnessP chaseLengthP waveHeightP scaleP : Option ℚ)
      (modeP : Option String) (sinFn : ℚ → ℚ) (piQ elapsed : ℚ),
      ColorPresetOK preset →
      ∀ os ∈ flowCompute panelCount mode sequences preset speedP brightnessP
        chaseLengthP waveHeightP scaleP modeP sinFn piQ elapsed,
        ∀ s, os = some s → PanelStateOK s) ∧
    (∀ (panelCount : ℕ) (preset : Option ColorPreset)
      (brightnessP frequencyP dutyCycleP : Option ℚ) (elapsed : ℚ),
      ColorPresetOK preset →
      ∀ s ∈ strobeCompute panelCount preset brightnessP frequencyP dutyCycleP
        elapsed, PanelStateOK s) ∧
    (∀ (startStates : List PanelState) (transitionDurationP : Option ℚ)
      (elapsed : ℚ), (∀ st ∈ startStates, PanelStateOK st) → 0 ≤ elapsed →
      ∀ s ∈ blackoutCompute startStates transitionDurationP elapsed,
        PanelStateOK s) ∧
    (∀ (st : StaticState) (panelColorsP : Option (List RGBCCTColor))
      (brightnessP transitionDurationP : Option ℚ)
      (gridColors : List RGBCCTColor) (panelCount : ℕ) (now : ℚ),
      (∀ c ∈ st.targetColors, ColorOK c) → (∀ c ∈ st.previousColors, ColorOK c) →
      (∀ c ∈ gridColors, ColorOK c) →
      (∀ cs, panelColorsP = some cs → ∀ c ∈ cs, ColorOK c) →
      (∀ b, brightnessP = some b → 0 ≤ b ∧ b ≤ 1) →
      (st.isTransitioning = true → 0 < transitionDurationP.getD 300) →
      st.transitionStartTime ≤ now →
      ∀ s ∈ (staticCompute st panelColorsP brightnessP transitionDurationP
        gridColors panelCount now).2, PanelStateOK s) :=
  ⟨fun panelCount _ _ _ _ _ hpre hstart hdur he =>
      solidCompute_ok panelCount hpre hstart hdur he,
   fun panelCount sequence _ _ _ _ _ hpre =>
      seqFadeCompute_ok panelCount sequence hpre,
   fun panelCount mode sequences _ _ _ _ _ _ _ _ _ _ hpre =>
      flowCompute_ok panelCount mode sequences hpre,
   fun panelCount _ _ _ _ _ hpre => strobeCompute_ok panelCount hpre,
   fun _ _ _ hss he => blackoutCompute_ok hss he,
   fun _ _ _ _ _ _ _ ht hp hg hn hb hts hnow =>
      staticCompute_ok ht hp hg hn hb hts hnow⟩

/-- Witness instantiating every conjunct of effects_output_in_range on a
concrete one-panel run. -/
theorem effects_output_in_range_witness :
    PanelStateOK ((solidCompute 1 none none none none 0).1.getD 0
      ⟨⟨0, 0, 0, 0, 0⟩, 0⟩) ∧
    PanelStateOK ((seqFadeCompute 1 [0] none none none none 0).1.getD 0
      ⟨⟨0, 0, 0, 0, 0⟩, 0⟩) ∧
    PanelStateOK (((flowCompute 1 TopologyMode.singular [] none none none none
      none none none (fun _ => 0) 0 0).getD 0 none).getD ⟨⟨0, 0, 0, 0, 0⟩, 0⟩) ∧
    PanelStateOK ((strobeCompute 1 none none none none 0).getD 0
      ⟨⟨0, 0, 0, 0, 0⟩, 0⟩) ∧
    PanelStateOK ((blackoutCompute [⟨⟨0, 0, 0, 0, 0⟩, 0⟩] none 0).getD 0
      ⟨⟨0, 0, 0, 0, 0⟩, 0⟩) ∧
    PanelStateOK ((staticCompute ⟨[⟨0, 0, 0, 0, 0⟩], [], 0, false, true⟩ none
      none none [⟨0, 0, 0, 0, 0⟩] 1 0).2.getD 0 ⟨⟨0, 0, 0, 0, 0⟩, 0⟩) := by
  obtain ⟨h1, h2, h3, h4, h5, h6⟩ := effects_output_in_range
  refine ⟨?_, ?_, ?_, ?_, ?_, ?_⟩
  · refine h1 1 none none none none 0 trivial (fun _ h => nomatch h)
      (fun _ h => nomatch h) le_rfl _ ?_
    simp [solidCompute, createUniformStates]
  · refine h2 1 [0] none none none none 0 trivial _ ?_
    simp [seqFadeCompute, seqFadeLoop, createPanelState]
  · refine h3 1 TopologyMode.singular [] none none none none none none none
      (fun _ => 0) 0 0 trivial _ ?_ _ rfl
    simp [flowCompute]
  · refine h4 1 none none none none 0 trivial _ ?_
    simp [strobeCompute, createUniformStates]
  · refine h5 [⟨⟨0, 0, 0, 0, 0⟩, 0⟩] none 0 ?_ le_rfl _ ?_
    · intro st hst
      rcases List.mem_singleton.mp hst with rfl
      exact ⟨le_rfl, by norm_num, colorOK_black⟩
    · simp [blackoutCompute]
  · refine h6 ⟨[⟨0, 0, 0, 0, 0⟩], [], 0, false, true⟩ none none none
      [⟨0, 0, 0, 0, 0⟩] 1 0 ?_ (fun c hc => nomatch hc) ?_
      (fun _ h => nomatch h) (fun _ h => nomatch h) (fun h => nomatch h)
      le_rfl _ ?_
    · intro c hc
      rcases List.mem_singleton.mp hc with rfl
      exact colorOK_black
    · intro c hc
      rcases List.mem_singleton.mp hc with rfl
      exact colorOK_black
    · simp only [staticCompute, staticFirstComputeUpdate, staticTargetUpdate,
        staticProgress, staticColors]
      norm_num [List.getD]

/-- C1 counterexample: StaticEffect.compute forwards the brightness
parameter unclamped, so a brightness of 2 reaches the output and the
claim fails without in-range hypotheses on the inputs. -/
theorem effects_output_in_range_cex :
    ¬ (∀ s ∈ (staticCompute ⟨[⟨0, 0, 0, 0, 0⟩], [], 0, false, true⟩ none (some 2)
      none [⟨0, 0, 0, 0, 0⟩] 1 0).2, PanelStateOK s) := by
  intro hall
  have hmem : (⟨⟨0, 0, 0, 0, 0⟩, 2⟩ : PanelState) ∈
      (staticCompute ⟨[⟨0, 0, 0, 0, 0⟩], [], 0, false, true⟩ none (some 2)
        none [⟨0, 0, 0, 0, 0⟩] 1 0).2 := by
    simp only [staticCompute, staticFirstComputeUpdate, staticTargetUpdate,
      staticProgress, staticColors]
    norm_num [jsRound]
  have hbad := (hall _ hmem).2.1
  norm_num at hbad

/-! ## Claim C2: Art-Net packet layout -/

/-- In-bounds buffer store evaluated at its own index. -/
theorem dmxSet_eq {buf : ℕ → ℕ} {idx v : ℕ} (h : idx < 512) :
    dmxSet buf idx v idx = v := by
  simp [dmxSet, h]

/-- In-bounds buffer store evaluated elsewhere. -/
theorem dmxSet_ne {buf : ℕ → ℕ} {idx v j : ℕ} (h : idx < 512) (hne : j ≠ idx) :
    dmxSet buf idx v j = buf j := by
  simp [dmxSet, h, hne]

/-- The ℕ value of the base channel under a valid start channel. -/
theorem panelBase_toNat {cfg : ArtNetConfig} (hsc : 1 ≤ cfg.startChannel)
    (hcpp : cfg.channelsPerPanel = 5) (i : ℕ) :
    (panelBase cfg i).toNat = cfg.startChannel - 1 + i * 5 := by
  unfold panelBase
  rw [hcpp]
  omega

/-- A non-skipped panel has its whole five-byte block inside the
universe. -/
theorem not_skipped_bound {cfg : ArtNetConfig} (hsc : 1 ≤ cfg.startChannel)
    (hcpp : cfg.channelsPerPanel = 5) {i : ℕ}
    (hns : panelSkipped cfg i = false) :
    cfg.startChannel - 1 + i * 5 + 5 ≤ 512 := by
  unfold panelSkipped panelBase at hns
  rw [hcpp] at hns
  simp only [Bool.or_eq_false_iff, decide_eq_false_iff_not, not_lt] at hns
  omega

/-- Bytes written for one non-skipped panel. -/
theorem writePanel_hit {cfg : ArtNetConfig} (hsc : 1 ≤ cfg.startChannel)
    (hcpp : cfg.channelsPerPanel = 5) {i : ℕ} (hns : panelSkipped cfg i = false)
    (st : PanelState) (buf : ℕ → ℕ) :
    ∀ k < 5, writePanel cfg i st buf (cfg.startChannel - 1 + i * 5 + k) =
      panelChannel st k := by
  intro k hk
  have hbound := not_skipped_bound hsc hcpp hns
  have hbase := panelBase_toNat hsc hcpp i
  unfold writePanel
  rw [hns]
  simp only [Bool.false_eq_true, if_false, hbase]
  interval_cases k
  · rw [dmxSet_ne (by omega) (by omega), dmxSet_ne (by omega) (by omega),
      dmxSet_ne (by omega) (by omega), dmxSet_ne (by omega) (by omega)]
    exact dmxSet_eq (by omega)
  · rw [dmxSet_ne (by omega) (by omega), dmxSet_ne (by omega) (by omega),
      dmxSet_ne (by omega) (by omega)]
    exact dmxSet_eq (by omega)
  · rw [dmxSet_ne (by omega) (by omega), dmxSet_ne (by omega) (by omega)]
    exact dmxSet_eq (by omega)
  · rw [dmxSet_ne (by omega) (by omega)]
    exact dmxSet_eq (by omega)
  · exact dmxSet_eq (by omega)

/-- A write leaves bytes outside its block unchanged. -/
theorem writePanel_miss {cfg : ArtNetConfig} (hsc : 1 ≤ cfg.startChannel)
    (hcpp : cfg.channelsPerPanel = 5) (i : ℕ) (st : PanelState) (buf : ℕ → ℕ)
    (j : ℕ)
    (hj : panelSkipped cfg i = true ∨ j < cfg.startChannel - 1 + i * 5 ∨
      cfg.startChannel - 1 + i * 5 + 5 ≤ j) :
    writePanel cfg i st buf j = buf j := by
  unfold writePanel
  cases hsk : panelSkipped cfg i with
  | true => simp
  | false =>
    simp only [Bool.false_eq_true, if_false]
    have hbase := panelBase_toNat hsc hcpp i
    rw [hbase]
    have hout : j < cfg.startChannel - 1 + i * 5 ∨
        cfg.startChannel - 1 + i * 5 + 5 ≤ j := by
      rcases hj with hsk2 | h | h
      · rw [hsk] at hsk2
        exact nomatch hsk2
      · exact Or.inl h
      · exact Or.inr h
    rw [dmxSet_ne (by
        have := not_skipped_bound hsc hcpp hsk
        omega) (by omega)]
    rw [dmxSet_ne (by
        have := not_skipped_bound hsc hcpp hsk
        omega) (by omega)]
    rw [dmxSet_ne (by
        have := not_skipped_bound hsc hcpp hsk
        omega) (by omega)]
    rw [dmxSet_ne (by
        have := not_skipped_bound hsc hcpp hsk
        omega) (by omega)]
    rw [dmxSet_ne (by
        have := not_skipped_bound hsc hcpp hsk
        omega) (by omega)]

/-- Folding the panel writes does not move bytes no panel covers. -/
theorem writePanels_notouch {cfg : ArtNetConfig} (hsc : 1 ≤ cfg.startChannel)
    (hcpp : cfg.channelsPerPanel = 5) :
    ∀ (states : List PanelState) (i0 : ℕ) (buf : ℕ → ℕ) (j : ℕ),
      (∀ k < states.length, panelSkipped cfg (i0 + k) = true ∨
        j < cfg.startChannel - 1 + (i0 + k) * 5 ∨
        cfg.startChannel - 1 + (i0 + k) * 5 + 5 ≤ j) →
      writePanels cfg i0 states buf j = buf j := by
  intro states
  induction states with
  | nil => intro i0 buf j _; rfl
  | cons st rest ih =>
    intro i0 buf j hcov
    rw [writePanels]
    rw [ih (i0 + 1) _ j (fun k hk => by
      have := hcov (k + 1) (by simpa using Nat.succ_lt_succ hk)
      convert this using 3 <;> omega)]
    exact writePanel_miss hsc hcpp i0 st buf j (by
      have := hcov 0 (by simp)
      simpa using this)

/-- Folding the panel writes stores each non-skipped panel's bytes. -/
theorem writePanels_hit {cfg : ArtNetConfig} (hsc : 1 ≤ cfg.startChannel)
    (hcpp : cfg.channelsPerPanel = 5) :
    ∀ (states : List PanelState) (i0 : ℕ) (buf : ℕ → ℕ) (i : ℕ)
      (hi : i < states.length),
      panelSkipped cfg (i0 + i) = false → ∀ k < 5,
      writePanels cfg i0 states buf (cfg.startChannel - 1 + (i0 + i) * 5 + k) =
        panelChannel states[i] k := by
  intro states
  induction states with
  | nil => intro i0 buf i hi; exact absurd hi (by simp)
  | cons st rest ih =>
    intro i0 buf i hi hns k hk
    rw [writePanels]
    cases i with
    | zero =>
      rw [writePanels_notouch hsc hcpp rest (i0 + 1) _ _ (fun m hm => by
        right
        left
        omega)]
      simp only [List.getElem_cons_zero]
      have := writePanel_hit hsc hcpp (by simpa using hns) st buf k hk
      simpa using this
    | succ i2 =>
      have hidx : cfg.startChannel - 1 + (i0 + (i2 + 1)) * 5 + k =
          cfg.startChannel - 1 + ((i0 + 1) + i2) * 5 + k := by omega
      have hns2 : panelSkipped cfg ((i0 + 1) + i2) = false := by
        convert hns using 2
        omega
      rw [hidx]
      rw [ih (i0 + 1) _ i2 (by simpa using Nat.lt_of_succ_lt_succ hi) hns2 k hk]
      simp

/-- C2: every datagram built by ArtNetOutput for the five-channel RGBCCT
configuration is 530 bytes; bytes 0..17 are the fixed header (Art-Net id,
ArtDMX opcode little-endian, protocol 14 big-endian, sequence, physical
0, packed port address little-endian, length 512 big-endian); the data
region mirrors the DMX buffer, whose bytes hold
clamp(round(channel*brightness)) for every non-skipped panel and 0
elsewhere; and the sequence byte increments modulo 256 across sends. -/
theorem artnet_packet_spec (cfg : ArtNetConfig) (states : List PanelState)
    (seq : ℕ) (hsc : 1 ≤ cfg.startChannel) (hcpp : cfg.channelsPerPanel = 5)
    (hseq : seq ≤ 255) (_hnet : cfg.net ≤ 127) (_hsub : cfg.subnet ≤ 15)
    (_huni : cfg.univ ≤ 15) :
    (buildPacketList cfg seq (renderDMX cfg states)).length = 530 ∧
    (∀ j < 18, buildPacketFn cfg seq (renderDMX cfg states) j =
      [65, 114, 116, 45, 78, 101, 116, 0, 0, 80, 0, 14, seq, 0,
       portAddress cfg % 256, portAddress cfg / 256 % 256, 2, 0].getD j 0) ∧
    (∀ j < 512, buildPacketFn cfg seq (renderDMX cfg states) (18 + j) =
      renderDMX cfg states j) ∧
    (∀ (i : ℕ) (hi : i < states.length), panelSkipped cfg i = false → ∀ k < 5,
      renderDMX cfg states (cfg.startChannel - 1 + i * 5 + k) =
        panelChannel states[i] k) ∧
    (∀ j < 512, (∀ i < states.length, panelSkipped cfg i = true ∨
        j < cfg.startChannel - 1 + i * 5 ∨ cfg.startChannel - 1 + i * 5 + 5 ≤ j) →
      renderDMX cfg states j = 0) ∧
    nextSequence seq = (seq + 1) % 256 ∧
    buildPacketFn cfg (nextSequence seq) (renderDMX cfg states) 12 =
      (seq + 1) % 256 := by
  have hnext : nextSequence seq = (seq + 1) % 256 := by
    rw [nextSequence]
    split <;> omega
  refine ⟨?_, ?_, ?_, ?_, ?_, hnext, ?_⟩
  · simp [buildPacketList]
  · intro j hj
    interval_cases j <;>
      norm_num [buildPacketFn, pktCopyDMX, pktSet16BE, pktSet16LE, pktSet,
        pktWriteBytes]
  · intro j hj
    have h1 : 18 ≤ 18 + j ∧ 18 + j < 18 + 512 := ⟨by omega, by omega⟩
    simp only [buildPacketFn, pktCopyDMX]
    rw [if_pos h1]
    congr 1
    omega
  · intro i hi hns k hk
    have h := writePanels_hit hsc hcpp states 0 (fun _ => 0) i hi
      (by simpa using hns) k hk
    simpa using h
  · intro j hj hcov
    exact writePanels_notouch hsc hcpp states 0 (fun _ => 0) j
      (fun k hk => by simpa using hcov k hk)
  · have h12 : buildPacketFn cfg (nextSequence seq)
        (renderDMX cfg states) 12 = nextSequence seq := by
      norm_num [buildPacketFn, pktCopyDMX, pktSet16BE, pktSet16LE, pktSet,
        pktWriteBytes]
    rw [h12, hnext]

/-- Witness instantiating artnet_packet_spec on a one-panel frame with
net 1, subnet 2, universe 3 and start channel 1. -/
theorem artnet_packet_spec_witness :
    (buildPacketList ⟨1, 2, 3, 1, 5⟩ 0
      (renderDMX ⟨1, 2, 3, 1, 5⟩ [⟨⟨255, 0, 0, 0, 0⟩, 1⟩])).length = 530 ∧
    buildPacketFn ⟨1, 2, 3, 1, 5⟩ 0
      (renderDMX ⟨1, 2, 3, 1, 5⟩ [⟨⟨255, 0, 0, 0, 0⟩, 1⟩]) 12 =
      [65, 114, 116, 45, 78, 101, 116, 0, 0, 80, 0, 14, 0, 0,
       portAddress ⟨1, 2, 3, 1, 5⟩ % 256, portAddress ⟨1, 2, 3, 1, 5⟩ / 256 % 256,
       2, 0].getD 12 0 ∧
    buildPacketFn ⟨1, 2, 3, 1, 5⟩ 0
      (renderDMX ⟨1, 2, 3, 1, 5⟩ [⟨⟨255, 0, 0, 0, 0⟩, 1⟩]) (18 + 0) =
      renderDMX ⟨1, 2, 3, 1, 5⟩ [⟨⟨255, 0, 0, 0, 0⟩, 1⟩] 0 ∧
    renderDMX ⟨1, 2, 3, 1, 5⟩ [⟨⟨255, 0, 0, 0, 0⟩, 1⟩] (1 - 1 + 0 * 5 + 0) =
      panelChannel (⟨⟨255, 0, 0, 0, 0⟩, 1⟩ : PanelState) 0 ∧
    renderDMX ⟨1, 2, 3, 1, 5⟩ [⟨⟨255, 0, 0, 0, 0⟩, 1⟩] 500 = 0 ∧
    nextSequence 0 = (0 + 1) % 256 ∧
    buildPacketFn ⟨1, 2, 3, 1, 5⟩ (nextSequence 0)
      (renderDMX ⟨1, 2, 3, 1, 5⟩ [⟨⟨255, 0, 0, 0, 0⟩, 1⟩]) 12 = (0 + 1) % 256 := by
  obtain ⟨w1, w2, w3, w4, w5, w6, w7⟩ :=
    artnet_packet_spec ⟨1, 2, 3, 1, 5⟩ [⟨⟨255, 0, 0, 0, 0⟩, 1⟩] 0
      (by norm_num) rfl (by norm_num) (by norm_num) (by norm_num) (by norm_num)
  refine ⟨w1, w2 12 (by norm_num), w3 0 (by norm_num), ?_, ?_, w6, w7⟩
  · have h := w4 0 (by norm_num) (by decide) 0 (by norm_num)
    simpa using h
  · refine w5 500 (by norm_num) ?_
    intro i hi
    simp only [List.length_singleton] at hi
    have hi0 : i = 0 := by omega
    subst hi0
    right
    right
    norm_num

end Chaser
